import Mathlib

/-!
Verification of the CQ_Update OTA firmware-update engine (src/src/Updater.cpp).

The development shallowly embeds `UpdateClass` as a pure state machine:
machine integers become `Nat` with explicit wraparound where the source's
`size_t` arithmetic can underflow, the flash partition becomes a byte map
`Nat → Nat`, and the external collaborators (partition accessor hardware,
SHA-256, mbedtls signature verification, boot selector) become oracle
parameters in an `Env` record, exactly as the specification declares them
out of scope.  Fallible external calls return `Option`.

Accessors that live in the interface header `Update.h` (not part of the
translated source file) are modelled from the specification's words and are
marked as such in their doc comments.
-/

namespace CQUpdate

/-- Erase-block size `SPI_FLASH_SEC_SIZE` used as the buffering unit. -/
abbrev SPI_FLASH_SEC_SIZE : Nat := 4096

/-- Size `ENCRYPTED_BLOCK_SIZE` of the stashed first block (16 bytes). -/
abbrev ENCRYPTED_BLOCK_SIZE : Nat := 16

/-- The image magic byte `ESP_IMAGE_HEADER_MAGIC` (0xE9). -/
abbrev ESP_IMAGE_HEADER_MAGIC : Nat := 233

/-- Command code `U_FLASH` (flashable firmware target). -/
abbrev U_FLASH : Nat := 0

/-- Command code `U_SPIFFS` (auxiliary data-partition target). -/
abbrev U_SPIFFS : Nat := 100

/-- Sentinel `UPDATE_SIZE_UNKNOWN` (0xFFFFFFFF). -/
abbrev UPDATE_SIZE_UNKNOWN : Nat := 4294967295

/-- Error code `UPDATE_ERROR_OK`. -/
abbrev UPDATE_ERROR_OK : Nat := 0
/-- Error code `UPDATE_ERROR_WRITE` ("Flash Write Failed"). -/
abbrev UPDATE_ERROR_WRITE : Nat := 1
/-- Error code `UPDATE_ERROR_ERASE` ("Flash Erase Failed"). -/
abbrev UPDATE_ERROR_ERASE : Nat := 2
/-- Error code `UPDATE_ERROR_READ` ("Flash Read Failed"). -/
abbrev UPDATE_ERROR_READ : Nat := 3
/-- Error code `UPDATE_ERROR_SPACE` ("Not Enough Space"). -/
abbrev UPDATE_ERROR_SPACE : Nat := 4
/-- Error code `UPDATE_ERROR_SIZE` ("Bad Size Given"). -/
abbrev UPDATE_ERROR_SIZE : Nat := 5
/-- Error code `UPDATE_ERROR_STREAM` ("Stream Read Timeout"). -/
abbrev UPDATE_ERROR_STREAM : Nat := 6
/-- Error code `UPDATE_ERROR_MD5` ("MD5 Check Failed"). -/
abbrev UPDATE_ERROR_MD5 : Nat := 7
/-- Error code `UPDATE_ERROR_MAGIC_BYTE` ("Wrong Magic Byte"). -/
abbrev UPDATE_ERROR_MAGIC_BYTE : Nat := 8
/-- Error code `UPDATE_ERROR_ACTIVATE` ("Could Not Activate The Firmware"). -/
abbrev UPDATE_ERROR_ACTIVATE : Nat := 9
/-- Error code `UPDATE_ERROR_NO_PARTITION` ("Partition Could Not be Found"). -/
abbrev UPDATE_ERROR_NO_PARTITION : Nat := 10
/-- Error code `UPDATE_ERROR_BAD_ARGUMENT` ("Bad Argument"). -/
abbrev UPDATE_ERROR_BAD_ARGUMENT : Nat := 11
/-- Error code `UPDATE_ERROR_ABORT` ("Aborted"). -/
abbrev UPDATE_ERROR_ABORT : Nat := 12
/-- Error code `UPDATE_ERROR_GET_SHA256` ("Get SHA-256 Failed", CQ added). -/
abbrev UPDATE_ERROR_GET_SHA256 : Nat := 13
/-- Error code `UPDATE_ERROR_PARSE_PUBLIC_KEY` (CQ added). -/
abbrev UPDATE_ERROR_PARSE_PUBLIC_KEY : Nat := 14
/-- Error code `UPDATE_ERROR_SIGNATURE_NOT_VALID` ("Signature Not Valid", CQ added). -/
abbrev UPDATE_ERROR_SIGNATURE_NOT_VALID : Nat := 15
/-- Error code `UPDATE_ERROR_SIGNATURE_VERIFICATION` ("Firmware Signature Verification Failed", CQ added). -/
abbrev UPDATE_ERROR_SIGNATURE_VERIFICATION : Nat := 16

/-- Unsigned 32-bit subtraction with wraparound, modelling the source's
`size_t` subtraction `_bufferLen - skip`, which underflows when
`_bufferLen < skip`.  Defined for `b ≤ 2^32`. -/
def sub32 (a b : Nat) : Nat := (a + 4294967296 - b) % 4294967296

/-- A storage partition as the engine sees it: a named region of a fixed
size.  Contents are tracked separately as a byte map in the engine state. -/
structure Partition where
  size : Nat
deriving DecidableEq, Repr

/-- The `UpdateClass` session state.  Field names keep the C++ member names
without the leading underscore.  `buffer = none` models an unallocated
(`_buffer == 0`) pending-write buffer; `some bs` models an allocated buffer
whose first `_bufferLen` bytes are `bs`.  `md5fed` is the byte sequence fed
to the incremental MD5 since `begin` (the hash primitive itself is external
and passed as a function where needed).  `flash` is the byte content of the
target partition's storage region. -/
structure UC where
  error : Nat
  buffer : Option (List Nat)
  size : Nat
  progress : Nat
  command : Nat
  partition : Option Partition
  paroffset : Nat
  target_md5 : String
  md5fed : List Nat
  skipBuffer : Option (List Nat)
  target_signature : String
  pubKey : Option String
  flash : Nat → Nat

/-- Number of bytes currently pending in the write buffer (`_bufferLen`). -/
def bufferLen (s : UC) : Nat := (s.buffer.getD []).length

/-- Modelled from the spec: accessor `hasError()` from the interface header
`Update.h` (not under src/): the sticky error code is nonzero. -/
def hasError (s : UC) : Prop := s.error ≠ UPDATE_ERROR_OK

instance (s : UC) : Decidable (hasError s) := by unfold hasError; infer_instance

/-- Modelled from the spec: accessor `isRunning()` from `Update.h` (not
under src/); the spec enforces single sessions "by checking that declared
size is still nonzero". -/
def isRunning (s : UC) : Prop := 0 < s.size

instance (s : UC) : Decidable (isRunning s) := by unfold isRunning; infer_instance

/-- Modelled from the spec: accessor `isFinished()` from `Update.h` (not
under src/): all declared bytes have been flushed. -/
def isFinished (s : UC) : Prop := s.progress = s.size

instance (s : UC) : Decidable (isFinished s) := by unfold isFinished; infer_instance

/-- Modelled from the spec: accessor `progress()` from `Update.h` (not under
src/): bytes flushed to storage so far. -/
def progressV (s : UC) : Nat := s.progress

/-- Modelled from the spec: accessor `remaining()` from `Update.h` (not
under src/): declared size minus flushed progress.  This is the reading
forced by the spec's flush rule "if the leftover exactly equals the
remaining capacity, it is flushed immediately", which mirrors the source's
`_bufferLen == remaining()` final-chunk flush. -/
def remaining (s : UC) : Nat := s.size - s.progress

/-- Oracles for the external collaborators: spurious-failure behaviour of
the partition accessor hardware (indexed by the operation's byte offset),
the one-shot SHA-256 primitive, mbedtls public-key parsing and signature
verification, partition reads, and the boot selector. -/
structure Env where
  hwEraseOk : Nat → Bool
  hwWriteOk : Nat → Bool
  hwReadOk : Bool
  sha256Ok : Bool
  pkParseOk : String → Bool
  pkVerifyOk : Bool
  setBootOk : Bool

/-- The external `ESP.partitionEraseRange`: erases `len` bytes at `off` to
0xFF; fails on a null partition, an out-of-range request, or a hardware
fault. -/
def partitionEraseRange (env : Env) (part : Option Partition) (fl : Nat → Nat)
    (off len : Nat) : Option (Nat → Nat) :=
  match part with
  | none => none
  | some p =>
    if env.hwEraseOk off ∧ off + len ≤ p.size then
      some (fun i => if off ≤ i ∧ i < off + len then 255 else fl i)
    else none

/-- The external `ESP.partitionWrite`: writes `len` bytes taken from `bs`
at offset `off`; fails on a null partition, an out-of-range request, or a
hardware fault.  Positions past the end of `bs` (unreachable in the claims'
runs) read as 0, standing in for the source's uninitialized memory. -/
def partitionWrite (env : Env) (part : Option Partition) (fl : Nat → Nat)
    (off : Nat) (bs : List Nat) (len : Nat) : Option (Nat → Nat) :=
  match part with
  | none => none
  | some p =>
    if env.hwWriteOk off ∧ off + len ≤ p.size then
      some (fun i => if off ≤ i ∧ i < off + len then bs.getD (i - off) 0 else fl i)
    else none

/-- The private `UpdateClass::_reset`: frees the pending buffer and clears
length, progress, size and command (the indicator-LED write is external
I/O and has no state here).  The sticky error, the target partition, the
expected hash/signature and the stashed first block are all left alone. -/
def reset (s : UC) : UC :=
  { s with buffer := none, progress := 0, size := 0, command := U_FLASH }

/-- The private `UpdateClass::_abort(err)`: reset, then set the sticky
error. -/
def abortErr (err : Nat) (s : UC) : UC :=
  { reset s with error := err }

/-- The public `UpdateClass::abort()`: `_abort(UPDATE_ERROR_ABORT)`. -/
def abortU (s : UC) : UC := abortErr UPDATE_ERROR_ABORT s

/-- `UpdateClass::_verifyHeader(data)`: for a flashable target the byte must
equal the image magic, otherwise the session is aborted with
`UPDATE_ERROR_MAGIC_BYTE`; data-partition targets accept anything; any
other command yields false without touching the state. -/
def verifyHeader (data : Nat) (s : UC) : UC × Bool :=
  if s.command = U_FLASH then
    if data ≠ ESP_IMAGE_HEADER_MAGIC then (abortErr UPDATE_ERROR_MAGIC_BYTE s, false)
    else (s, true)
  else if s.command = U_SPIFFS then (s, true)
  else (s, false)

/-- `UpdateClass::_writeBuffer`, the flush protocol: on the very first flush
of a flashable image, check the magic byte (abort `MAGIC_BYTE` on
mismatch) and stash the first `ENCRYPTED_BLOCK_SIZE` bytes; erase one
sector at the current progress offset (abort `ERASE` on failure); program
the buffer skipping the stashed bytes — note the skipped length
`_bufferLen - skip` is `size_t` arithmetic, hence `sub32` (abort `WRITE`
on failure); restore the magic byte in memory, feed the buffer to the
incremental hash, advance progress and clear the buffer.  The stash
`malloc` and the progress callback are external and always succeed here. -/
def flushTail (env : Env) (s1 : UC) (buf : List Nat) (skip : Nat) : UC × Bool :=
  match partitionEraseRange env s1.partition s1.flash s1.progress SPI_FLASH_SEC_SIZE with
  | none => (abortErr UPDATE_ERROR_ERASE s1, false)
  | some fl1 =>
    match partitionWrite env s1.partition fl1 (s1.progress + skip) (buf.drop skip)
            (sub32 buf.length skip) with
    | none => (abortErr UPDATE_ERROR_WRITE { s1 with flash := fl1 }, false)
    | some fl2 =>
      let buf2 := if skip ≠ 0 then ESP_IMAGE_HEADER_MAGIC :: buf.tail else buf
      ({ s1 with flash := fl2, md5fed := s1.md5fed ++ buf2,
                 progress := s1.progress + buf2.length, buffer := some [] }, true)

/-- `UpdateClass::_writeBuffer`, the flush protocol: on the very first flush
of a flashable image, check the magic byte (abort `MAGIC_BYTE` on
mismatch) and stash the first `ENCRYPTED_BLOCK_SIZE` bytes, which are then
skipped by the program step; erase one sector at the current progress
offset (abort `ERASE` on failure); program the buffer past the skipped
bytes — the programmed length `_bufferLen - skip` is `size_t` arithmetic,
hence `sub32` (abort `WRITE` on failure); restore the magic byte in memory
(exactly when bytes were skipped), feed the buffer to the incremental
hash, advance progress and clear the buffer.  The erase/program tail lives
in `flushTail`, with `skip` determining the first-flush special-casing as
in the source.  The stash `malloc` and the progress callback are external
and assumed to succeed. -/
def writeBuffer (env : Env) (s : UC) : UC × Bool :=
  if s.progress = 0 ∧ s.command = U_FLASH then
    if (s.buffer.getD []).headD 0 ≠ ESP_IMAGE_HEADER_MAGIC then
      (abortErr UPDATE_ERROR_MAGIC_BYTE s, false)
    else
      flushTail env
        { s with skipBuffer := some ((s.buffer.getD []).take ENCRYPTED_BLOCK_SIZE) }
        (s.buffer.getD []) ENCRYPTED_BLOCK_SIZE
  else
    flushTail env s (s.buffer.getD []) 0

/-- The chunk-splitting loop of `UpdateClass::write`, with an explicit
iteration budget `fuel` so the recursion is structural and executable:
`rest` is the not yet consumed tail of the call's data
(`data + (len - left)` in the source) and `len` the call's original
length, so a flush failure returns `len - rest.length` (the source's
`len - left`) with the aborted state.  Every iteration either consumes at
least one byte of `rest` (when the buffer is not full) or empties a full
buffer, so `rest.length + bufferLen s + 2` iterations always suffice; the
fuel-exhaustion branch is unreachable for such budgets (see
`writeLoopF_fuel_irrel`), and `writeLoop` below instantiates one. -/
def writeLoopF (env : Env) (fuel : Nat) (s : UC) (rest : List Nat) (len : Nat) : UC × Nat :=
  match fuel with
  | 0 => (s, len)
  | fuel + 1 =>
    if SPI_FLASH_SEC_SIZE < bufferLen s + rest.length then
      let toBuff := SPI_FLASH_SEC_SIZE - bufferLen s
      let s1 := { s with buffer := some ((s.buffer.getD []) ++ rest.take toBuff) }
      match writeBuffer env s1 with
      | (s2, false) => (s2, len - rest.length)
      | (s2, true) => writeLoopF env fuel s2 (rest.drop toBuff) len
    else
      let s1 := { s with buffer := some ((s.buffer.getD []) ++ rest) }
      if bufferLen s1 = remaining s1 then
        match writeBuffer env s1 with
        | (s2, false) => (s2, len - rest.length)
        | (s2, true) => (s2, len)
      else (s1, len)

/-- The source's `while` loop of `UpdateClass::write`, with a sufficient
iteration budget. -/
def writeLoop (env : Env) (s : UC) (rest : List Nat) (len : Nat) : UC × Nat :=
  writeLoopF env (rest.length + bufferLen s + 2) s rest len

/-- `UpdateClass::write(data, len)`: rejected silently on a sticky error or
no running session; aborts with `UPDATE_ERROR_SPACE` when the length
exceeds the remaining capacity; otherwise runs the buffering loop. -/
def write (env : Env) (s : UC) (data : List Nat) : UC × Nat :=
  if hasError s ∨ ¬ isRunning s then (s, 0)
  else if remaining s < data.length then (abortErr UPDATE_ERROR_SPACE s, 0)
  else writeLoop env s data data.length

/-- The blocking byte source of `writeStream`, modelled as the list of
results of successive `readBytes` calls: each element is the data the
source offers on one call (clamped to the requested length), an empty
element being a zero-byte (timed-out) read, and an exhausted list meaning
the source never delivers again. -/
abbrev ByteSource := List (List Nat)

/-- `Stream::peek` as `writeStream` consumes it: the next byte the source
will ever deliver, or 255 (the `int` -1 truncated to `uint8_t`) when there
is none. -/
def streamPeek (src : ByteSource) : Nat := src.flatten.headD 255

/-- The stall-tolerant inner read loop of `writeStream`: call `readBytes`
until it returns data; each zero-byte read increments the failure counter
(the 100 ms backoff delay is external), and once it reaches 300 the read
gives up (`none`, aborting the stream with `UPDATE_ERROR_STREAM`).
Returns the bytes obtained (at most `btr`) and the rest of the source. -/
def tryRead (src : ByteSource) (failures btr : Nat) : Option (List Nat × ByteSource) :=
  match src with
  | [] => none
  | c :: restS =>
    if (c.take btr).length = 0 then
      if 300 ≤ failures + 1 then none
      else tryRead restS (failures + 1) btr
    else some (c.take btr, restS)

/-- The outer ingestion loop of `writeStream`, with an explicit iteration
budget `fuel` so the recursion is structural and executable: while bytes
remain, request `min (buffer space left) (session remaining)` bytes
through the stall loop, abort with `UPDATE_ERROR_STREAM` if it gives up,
append the bytes to the pending buffer, flush when the buffer is full or
exactly completes the remaining size (a failed flush stops the loop,
returning the count so far), and accumulate the written count.  Every
iteration consumes at least one element of the source, so
`src.length + 1` iterations always suffice; the fuel-exhaustion branch is
unreachable for such budgets (see `streamLoopF_fuel_irrel`), and
`streamLoop` below instantiates one.  The indicator LED writes are
external I/O. -/
def streamLoopF (env : Env) (fuel : Nat) (s : UC) (src : ByteSource) (written : Nat) : UC × Nat :=
  match fuel with
  | 0 => (s, written)
  | fuel + 1 =>
    if remaining s = 0 then (s, written)
    else
      let btr := min (SPI_FLASH_SEC_SIZE - bufferLen s) (remaining s)
      match tryRead src 0 btr with
      | none => (abortErr UPDATE_ERROR_STREAM s, written)
      | some (chunk, restS) =>
        let s1 := { s with buffer := some ((s.buffer.getD []) ++ chunk) }
        if bufferLen s1 = remaining s1 ∨ bufferLen s1 = SPI_FLASH_SEC_SIZE then
          match writeBuffer env s1 with
          | (s2, false) => (s2, written)
          | (s2, true) => streamLoopF env fuel s2 restS (written + chunk.length)
        else streamLoopF env fuel s1 restS (written + chunk.length)

/-- The source's `while(remaining())` loop of `UpdateClass::writeStream`,
with a sufficient iteration budget. -/
def streamLoop (env : Env) (s : UC) (src : ByteSource) (written : Nat) : UC × Nat :=
  streamLoopF env (src.length + 1) s src written

/-- `UpdateClass::writeStream(data)`: rejected silently on a sticky error or
no running session; peeks the first byte and validates it via
`_verifyHeader`, resetting the session and returning 0 on failure (note
`_verifyHeader` itself aborts with `UPDATE_ERROR_MAGIC_BYTE` first for a
flashable target); then runs the ingestion loop. -/
def writeStream (env : Env) (s : UC) (src : ByteSource) : UC × Nat :=
  if hasError s ∨ ¬ isRunning s then (s, 0)
  else
    match verifyHeader (streamPeek src) s with
    | (s1, false) => (reset s1, 0)
    | (s1, true) => streamLoop env s1 src 0

/-- `UpdateClass::setMD5`: rejects any expected hash whose length is not 32
characters; otherwise records it. -/
def setMD5 (expected : String) (s : UC) : UC × Bool :=
  if expected.length ≠ 32 then (s, false)
  else ({ s with target_md5 := expected }, true)

/-- `UpdateClass::setSignature`: records the expected signature text and its
length. -/
def setSignature (expected : String) (s : UC) : UC :=
  { s with target_signature := expected }

/-- `UpdateClass::_enablePartition`: false on a null partition, otherwise
writes the stashed first block (`ENCRYPTED_BLOCK_SIZE` bytes) back to
storage at offset 0.  A never-allocated stash reads as zero bytes
(uninitialized memory in the source; unreachable in the claims' runs). -/
def enablePartition (env : Env) (s : UC) : UC × Bool :=
  match s.partition with
  | none => (s, false)
  | some _ =>
    match partitionWrite env s.partition s.flash 0 (s.skipBuffer.getD [])
            ENCRYPTED_BLOCK_SIZE with
    | none => (s, false)
    | some fl2 => ({ s with flash := fl2 }, true)

/-- The static `_partitionIsBootable`: false on a null partition or a failed
read of the first `ENCRYPTED_BLOCK_SIZE` bytes; otherwise tests whether
the first stored byte equals the image magic. -/
def partitionIsBootable (env : Env) (s : UC) : Bool :=
  match s.partition with
  | none => false
  | some p =>
    if env.hwReadOk ∧ ENCRYPTED_BLOCK_SIZE ≤ p.size then
      decide (s.flash 0 = ESP_IMAGE_HEADER_MAGIC)
    else false

/-- `UpdateClass::_signatureValid` (CQ added): first writes the stashed
first block back via `_enablePartition` (aborting `NO_PARTITION` on
failure) — note this happens before any verification — then computes the
SHA-256 over the written partition (aborting `GET_SHA256` on failure),
parses the configured public key (aborting `SIGNATURE_NOT_VALID` on
failure) and verifies the signature against the digest (aborting
`SIGNATURE_NOT_VALID` on mismatch).  The hex-to-bytes signature
conversion feeds the external verifier and is absorbed into its oracle. -/
def signatureValid (env : Env) (s : UC) : UC × Bool :=
  match enablePartition env s with
  | (s1, false) => (abortErr UPDATE_ERROR_NO_PARTITION s1, false)
  | (s1, true) =>
    if ¬ env.sha256Ok then (abortErr UPDATE_ERROR_GET_SHA256 s1, false)
    else if ¬ env.pkParseOk (s1.pubKey.getD "") then
      (abortErr UPDATE_ERROR_SIGNATURE_NOT_VALID s1, false)
    else if ¬ env.pkVerifyOk then
      (abortErr UPDATE_ERROR_SIGNATURE_NOT_VALID s1, false)
    else (s1, true)

/-- `UpdateClass::_verifyEnd`, the activation step: for a flashable target,
write the stashed first block back (`_enablePartition`) and re-read the
partition's bootability, aborting `READ` if either fails; then mark the
partition as the boot target, aborting `ACTIVATE` on failure; finally
reset the session and return true.  A data-partition target just resets.
Any other command returns false without touching the state. -/
def verifyEnd (env : Env) (s : UC) : UC × Bool :=
  if s.command = U_FLASH then
    match enablePartition env s with
    | (s1, false) => (abortErr UPDATE_ERROR_READ s1, false)
    | (s1, true) =>
      if ¬ partitionIsBootable env s1 then (abortErr UPDATE_ERROR_READ s1, false)
      else if ¬ env.setBootOk then (abortErr UPDATE_ERROR_ACTIVATE s1, false)
      else (reset s1, true)
  else if s.command = U_SPIFFS then (reset s, true)
  else (s, false)

/-- The `evenIfRemaining` block of `UpdateClass::end`: flush a non-empty
pending buffer — the flush's return value is discarded, exactly as in the
source — then shrink the declared size to the progress. -/
def endFlush (env : Env) (evenIfRemaining : Bool) (s : UC) : UC :=
  if evenIfRemaining then
    let sF := if 0 < bufferLen s then (writeBuffer env s).1 else s
    { sF with size := progressV sF }
  else s

/-- The verification tail of `UpdateClass::end`: finalize the incremental
hash `H` and compare it with the expected hash when one is set, aborting
`MD5` on mismatch; if a public key is configured, run the signature
check, aborting `SIGNATURE_VERIFICATION` on failure; finally run the
activation step. -/
def endVerify (env : Env) (H : List Nat → String) (sA : UC) : UC × Bool :=
  if 0 < sA.target_md5.length ∧ sA.target_md5 ≠ H sA.md5fed then
    (abortErr UPDATE_ERROR_MD5 sA, false)
  else
    match sA.pubKey with
    | some _ =>
      match signatureValid env sA with
      | (s1, false) => (abortErr UPDATE_ERROR_SIGNATURE_VERIFICATION s1, false)
      | (s1, true) => verifyEnd env s1
    | none => verifyEnd env sA

/-- `UpdateClass::end(evenIfRemaining)`: fails at once on a sticky error or
zero size; aborts `ABORT` on a premature end; otherwise runs the
`evenIfRemaining` flush block and the verification/activation tail.  `H`
is the external MD5 primitive as a function of the bytes fed. -/
def endU (env : Env) (H : List Nat → String) (evenIfRemaining : Bool) (s : UC) : UC × Bool :=
  if hasError s ∨ s.size = 0 then (s, false)
  else if ¬ isFinished s ∧ ¬ evenIfRemaining then (abortErr UPDATE_ERROR_ABORT s, false)
  else endVerify env H (endFlush env evenIfRemaining s)

/-- `UpdateClass::begin(size, command, ..., label)`: rejected (state
untouched) while a session is running; otherwise resets the session,
clears the sticky error, the expected hash and the hash state; rejects
size 0 with `SIZE`; resolves the target partition — the next OTA
partition for `U_FLASH` (the `nextOta` lookup result), the labelled
SPIFFS data partition for `U_SPIFFS` falling back to the FAT partition
with a 0x1000 offset adjustment, `NO_PARTITION` when the lookup fails —
and rejects any other command with `BAD_ARGUMENT`; resolves the sentinel
unknown size to the partition size and rejects larger sizes with `SIZE`;
finally allocates the pending buffer (the `malloc` is assumed to
succeed), fixes size and command and restarts the hash. -/
def beginSized (p : Partition) (sz command : Nat) (s : UC) : UC × Bool :=
  if sz = UPDATE_SIZE_UNKNOWN then
    ({ s with buffer := some [], size := p.size, command := command, md5fed := [] }, true)
  else if p.size < sz then ({ s with error := UPDATE_ERROR_SIZE }, false)
  else ({ s with buffer := some [], size := sz, command := command, md5fed := [] }, true)

def begin (nextOta spiffsPart fatPart : Option Partition) (sz command : Nat)
    (s : UC) : UC × Bool :=
  if 0 < s.size then (s, false)
  else
    let s1 := { reset s with error := 0, target_md5 := "", md5fed := [] }
    if sz = 0 then ({ s1 with error := UPDATE_ERROR_SIZE }, false)
    else if command = U_FLASH then
      match nextOta with
      | none => ({ s1 with error := UPDATE_ERROR_NO_PARTITION }, false)
      | some p => beginSized p sz command { s1 with partition := some p }
    else if command = U_SPIFFS then
      match spiffsPart with
      | some p => beginSized p sz command { s1 with partition := some p, paroffset := 0 }
      | none =>
        match fatPart with
        | some p => beginSized p sz command { s1 with partition := some p, paroffset := 4096 }
        | none => ({ s1 with paroffset := 4096, error := UPDATE_ERROR_NO_PARTITION }, false)
    else ({ s1 with error := UPDATE_ERROR_BAD_ARGUMENT }, false)

/-- A fresh `UpdateClass` as constructed (no error, no buffer, size and
progress 0, command `U_FLASH`, no partition, nothing configured), over an
arbitrary initial partition content. -/
def initUC (fl : Nat → Nat) : UC :=
  { error := 0, buffer := none, size := 0, progress := 0, command := U_FLASH,
    partition := none, paroffset := 0, target_md5 := "", md5fed := [],
    skipBuffer := none, target_signature := "", pubKey := none, flash := fl }

/-- Successive `write` calls, one per chunk. -/
def writeChunks (env : Env) (s : UC) (chunks : List (List Nat)) : UC :=
  chunks.foldl (fun t c => (write env t c).1) s

/-- Oracle environment where every external operation succeeds. -/
def envAll : Env :=
  { hwEraseOk := fun _ => true, hwWriteOk := fun _ => true, hwReadOk := true,
    sha256Ok := true, pkParseOk := fun _ => true, pkVerifyOk := true, setBootOk := true }

/-- Oracle environment where only the cryptographic signature verification
fails. -/
def envSigFail : Env := { envAll with pkVerifyOk := false }

/-- Oracle environment where every flash erase fails and everything else
succeeds. -/
def envEraseFail : Env := { envAll with hwEraseOk := fun _ => false }

/-- Stand-in for the external MD5 primitive in concrete runs. -/
def md5Empty : List Nat → String := fun _ => ""

/-- All-zero initial partition content. -/
def flashZero : Nat → Nat := fun _ => 0

/-- A sample 20-byte flashable image: the magic byte followed by 0..18. -/
def sampleImage : List Nat := ESP_IMAGE_HEADER_MAGIC :: List.range 19

/-- An 8 KiB partition (two erase blocks). -/
def part8k : Partition := ⟨8192⟩

/-- The engine right after `abort()` on a fresh instance: idle with the
`Aborted` sticky error. -/
def erroredIdle : UC := abortU (initUC flashZero)

/-- A freshly begun 20-byte flashable session on `part8k`. -/
def sessF20 : UC := (begin (some part8k) none none 20 U_FLASH (initUC flashZero)).1

/-- A freshly begun 40-byte flashable session on `part8k`. -/
def sessF40 : UC := (begin (some part8k) none none 40 U_FLASH (initUC flashZero)).1

/-- `sessF40` after writing `sampleImage`: 20 bytes pending in the buffer,
nothing flushed yet. -/
def sessF40p : UC := (write envAll sessF40 sampleImage).1

/-- A freshly begun 30-byte data-partition session on `part8k`. -/
def sess30 : UC := (begin none (some part8k) none 30 U_SPIFFS (initUC flashZero)).1

/-- `sess30` after buffering 10 bytes (no flush). -/
def sess30b : UC := (write envAll sess30 (List.range 10)).1

/-- `sessF20` after writing the full `sampleImage` (one flush), with a
verification public key configured for the process. -/
def sessSig : UC := { (write envAll sessF20 sampleImage).1 with pubKey := some "KEY" }

/-- `sessF20` after writing the full `sampleImage` and configuring an
expected content hash (which cannot match the `md5Empty` stand-in). -/
def sessHash : UC :=
  (setMD5 "0123456789abcdef0123456789abcdef" (write envAll sessF20 sampleImage).1).1

/-- Idle-on-error invariant (claim C10): whenever the sticky error is set,
declared size and progress are 0 and the pending buffer is freed (hence
its length is 0). -/
def ErrIdle (s : UC) : Prop :=
  s.error ≠ UPDATE_ERROR_OK → s.size = 0 ∧ s.progress = 0 ∧ s.buffer = none

instance (s : UC) : Decidable (ErrIdle s) := by unfold ErrIdle; infer_instance

/-- No-early-boot invariant: once a flashable session has flushed at least
once, the partition's first byte holds the erased value 0xFF, not the
image magic. -/
def noEarlyBoot (s : UC) : Prop :=
  s.command = U_FLASH → 0 < s.progress → s.flash 0 = 255

instance (s : UC) : Decidable (noEarlyBoot s) := by unfold noEarlyBoot; infer_instance

/-- Oracle environment assumption of claim C2: every external erase, write
and read operation (requested within the partition's bounds) succeeds,
and so does marking the boot partition. -/
def EnvAllOk (env : Env) : Prop :=
  (∀ o, env.hwEraseOk o = true) ∧ (∀ o, env.hwWriteOk o = true) ∧
  env.hwReadOk = true ∧ env.setBootOk = true

/-- Session invariant for the round-trip claim C2, after `k` of the image
bytes `S` have been consumed by `write` calls: the session is error-free
with the declared size and flashable target fixed, the flushed progress
plus the pending bytes account for exactly `k`, the pending buffer holds
exactly the unflushed slice of `S`, flushes happen on erase-block
boundaries, and once the first flush has happened the stored bytes below
`progress` agree with `S` except for the first block, which is stashed in
`skipBuffer` and still erased (0xFF) on storage. -/
def C2Inv (S : List Nat) (psize : Nat) (k : Nat) (s : UC) : Prop :=
  s.error = UPDATE_ERROR_OK ∧ s.size = S.length ∧ s.command = U_FLASH ∧
  s.partition = some ⟨psize⟩ ∧ s.pubKey = none ∧ s.target_md5 = "" ∧
  s.progress + bufferLen s = k ∧
  s.buffer = some ((S.take k).drop s.progress) ∧
  bufferLen s ≤ SPI_FLASH_SEC_SIZE ∧
  (k < S.length → s.progress % SPI_FLASH_SEC_SIZE = 0) ∧
  (k = S.length → s.progress = S.length) ∧
  (0 < s.progress →
    (∀ i, i < ENCRYPTED_BLOCK_SIZE → s.flash i = 255) ∧
    (∀ i, ENCRYPTED_BLOCK_SIZE ≤ i → i < s.progress → s.flash i = S.getD i 0) ∧
    s.skipBuffer = some (S.take ENCRYPTED_BLOCK_SIZE) ∧
    ENCRYPTED_BLOCK_SIZE ≤ s.progress)

theorem ErrIdle_abortErr (e : Nat) (s : UC) : ErrIdle (abortErr e s) :=
  fun _ => ⟨rfl, rfl, rfl⟩

theorem ErrIdle_reset (s : UC) : ErrIdle (reset s) :=
  fun _ => ⟨rfl, rfl, rfl⟩

theorem writeBuffer_spec (env : Env) (s t : UC) (b : Bool) (h : writeBuffer env s = (t, b)) :
    (b = false → t.size = 0 ∧ t.progress = 0 ∧ t.buffer = none ∧
      (t.error = UPDATE_ERROR_MAGIC_BYTE ∨ t.error = UPDATE_ERROR_ERASE ∨
        t.error = UPDATE_ERROR_WRITE) ∧
      t.target_md5 = s.target_md5 ∧ t.pubKey = s.pubKey ∧ t.partition = s.partition) ∧
    (b = true → t.error = s.error ∧ t.size = s.size ∧ t.buffer = some [] ∧
      t.target_md5 = s.target_md5 ∧ t.pubKey = s.pubKey ∧ t.partition = s.partition ∧
      t.command = s.command) := by
  unfold writeBuffer flushTail at h
  split at h
  · split at h
    · simp only [Prod.mk.injEq] at h
      obtain ⟨rfl, rfl⟩ := h
      exact ⟨fun _ => ⟨rfl, rfl, rfl, Or.inl rfl, rfl, rfl, rfl⟩, by simp⟩
    · split at h
      · simp only [Prod.mk.injEq] at h
        obtain ⟨rfl, rfl⟩ := h
        exact ⟨fun _ => ⟨rfl, rfl, rfl, Or.inr (Or.inl rfl), rfl, rfl, rfl⟩, by simp⟩
      · split at h
        · simp only [Prod.mk.injEq] at h
          obtain ⟨rfl, rfl⟩ := h
          exact ⟨fun _ => ⟨rfl, rfl, rfl, Or.inr (Or.inr rfl), rfl, rfl, rfl⟩, by simp⟩
        · simp only [Prod.mk.injEq] at h
          obtain ⟨rfl, rfl⟩ := h
          exact ⟨by simp, fun _ => ⟨rfl, rfl, rfl, rfl, rfl, rfl, rfl⟩⟩
  · split at h
    · simp only [Prod.mk.injEq] at h
      obtain ⟨rfl, rfl⟩ := h
      exact ⟨fun _ => ⟨rfl, rfl, rfl, Or.inr (Or.inl rfl), rfl, rfl, rfl⟩, by simp⟩
    · split at h
      · simp only [Prod.mk.injEq] at h
        obtain ⟨rfl, rfl⟩ := h
        exact ⟨fun _ => ⟨rfl, rfl, rfl, Or.inr (Or.inr rfl), rfl, rfl, rfl⟩, by simp⟩
      · simp only [Prod.mk.injEq] at h
        obtain ⟨rfl, rfl⟩ := h
        exact ⟨by simp, fun _ => ⟨rfl, rfl, rfl, rfl, rfl, rfl, rfl⟩⟩

theorem enablePartition_spec (env : Env) (s t : UC) (b : Bool)
    (h : enablePartition env s = (t, b)) :
    t.error = s.error ∧ t.size = s.size ∧ t.progress = s.progress ∧
    t.buffer = s.buffer ∧ t.target_md5 = s.target_md5 ∧ t.pubKey = s.pubKey ∧
    t.partition = s.partition ∧ t.command = s.command := by
  unfold enablePartition at h
  split at h
  · simp only [Prod.mk.injEq] at h
    obtain ⟨rfl, rfl⟩ := h
    exact ⟨rfl, rfl, rfl, rfl, rfl, rfl, rfl, rfl⟩
  · split at h
    · simp only [Prod.mk.injEq] at h
      obtain ⟨rfl, rfl⟩ := h
      exact ⟨rfl, rfl, rfl, rfl, rfl, rfl, rfl, rfl⟩
    · simp only [Prod.mk.injEq] at h
      obtain ⟨rfl, rfl⟩ := h
      exact ⟨rfl, rfl, rfl, rfl, rfl, rfl, rfl, rfl⟩

theorem signatureValid_spec (env : Env) (s t : UC) (b : Bool)
    (h : signatureValid env s = (t, b)) :
    (b = true → t.error = s.error ∧ t.size = s.size ∧ t.progress = s.progress ∧
      t.buffer = s.buffer ∧ t.target_md5 = s.target_md5 ∧ t.partition = s.partition ∧
      t.command = s.command) ∧
    (b = false → t.size = 0 ∧ t.progress = 0 ∧ t.buffer = none ∧
      (t.error = UPDATE_ERROR_NO_PARTITION ∨ t.error = UPDATE_ERROR_GET_SHA256 ∨
        t.error = UPDATE_ERROR_SIGNATURE_NOT_VALID)) := by
  unfold signatureValid at h
  split at h
  next s1 heq =>
    have hs1 := enablePartition_spec env s s1 false heq
    simp only [Prod.mk.injEq] at h
    obtain ⟨rfl, rfl⟩ := h
    exact ⟨by simp, fun _ => ⟨rfl, rfl, rfl, Or.inl rfl⟩⟩
  next s1 heq =>
    have hs1 := enablePartition_spec env s s1 true heq
    split at h
    · simp only [Prod.mk.injEq] at h
      obtain ⟨rfl, rfl⟩ := h
      exact ⟨by simp, fun _ => ⟨rfl, rfl, rfl, Or.inr (Or.inl rfl)⟩⟩
    · split at h
      · simp only [Prod.mk.injEq] at h
        obtain ⟨rfl, rfl⟩ := h
        exact ⟨by simp, fun _ => ⟨rfl, rfl, rfl, Or.inr (Or.inr rfl)⟩⟩
      · split at h
        · simp only [Prod.mk.injEq] at h
          obtain ⟨rfl, rfl⟩ := h
          exact ⟨by simp, fun _ => ⟨rfl, rfl, rfl, Or.inr (Or.inr rfl)⟩⟩
        · simp only [Prod.mk.injEq] at h
          obtain ⟨rfl, rfl⟩ := h
          exact ⟨fun _ => ⟨hs1.1, hs1.2.1, hs1.2.2.1, hs1.2.2.2.1, hs1.2.2.2.2.1,
            hs1.2.2.2.2.2.2.1, hs1.2.2.2.2.2.2.2⟩, by simp⟩

theorem verifyEnd_error (env : Env) (s t : UC) (b : Bool)
    (h : verifyEnd env s = (t, b)) :
    t.error = s.error ∨ t.error = UPDATE_ERROR_READ ∨ t.error = UPDATE_ERROR_ACTIVATE := by
  unfold verifyEnd at h
  split at h
  · split at h
    next s1 heq =>
      have hs1 := enablePartition_spec env s s1 false heq
      simp only [Prod.mk.injEq] at h
      obtain ⟨rfl, rfl⟩ := h
      exact Or.inr (Or.inl rfl)
    next s1 heq =>
      have hs1 := enablePartition_spec env s s1 true heq
      split at h
      · simp only [Prod.mk.injEq] at h
        obtain ⟨rfl, rfl⟩ := h
        exact Or.inr (Or.inl rfl)
      · split at h
        · simp only [Prod.mk.injEq] at h
          obtain ⟨rfl, rfl⟩ := h
          exact Or.inr (Or.inr rfl)
        · simp only [Prod.mk.injEq] at h
          obtain ⟨rfl, rfl⟩ := h
          exact Or.inl hs1.1
  · split at h
    · simp only [Prod.mk.injEq] at h
      obtain ⟨rfl, rfl⟩ := h
      exact Or.inl rfl
    · simp only [Prod.mk.injEq] at h
      obtain ⟨rfl, rfl⟩ := h
      exact Or.inl rfl

theorem verifyEnd_ErrIdle (env : Env) (s t : UC) (b : Bool)
    (h : verifyEnd env s = (t, b)) (hs : ErrIdle s) : ErrIdle t := by
  unfold verifyEnd at h
  split at h
  · split at h
    next s1 heq =>
      simp only [Prod.mk.injEq] at h
      obtain ⟨rfl, rfl⟩ := h
      exact ErrIdle_abortErr _ _
    next s1 heq =>
      have hs1 := enablePartition_spec env s s1 true heq
      split at h
      · simp only [Prod.mk.injEq] at h
        obtain ⟨rfl, rfl⟩ := h
        exact ErrIdle_abortErr _ _
      · split at h
        · simp only [Prod.mk.injEq] at h
          obtain ⟨rfl, rfl⟩ := h
          exact ErrIdle_abortErr _ _
        · simp only [Prod.mk.injEq] at h
          obtain ⟨rfl, rfl⟩ := h
          exact ErrIdle_reset _
  · split at h
    · simp only [Prod.mk.injEq] at h
      obtain ⟨rfl, rfl⟩ := h
      exact ErrIdle_reset _
    · simp only [Prod.mk.injEq] at h
      obtain ⟨rfl, rfl⟩ := h
      exact hs

theorem endVerify_ne_MD5 (env : Env) (H : List Nat → String) (x : UC)
    (hx : x.error ≠ UPDATE_ERROR_MD5) (hxt : x.target_md5 = "") :
    (endVerify env H x).1.error ≠ UPDATE_ERROR_MD5 := by
  unfold endVerify
  rw [if_neg (by simp [hxt])]
  cases hpk : x.pubKey with
  | none =>
    rcases hv : verifyEnd env x with ⟨t, bb⟩
    rcases verifyEnd_error env x t bb hv with h | h | h
    · simp only [hv]
      rw [h]
      exact hx
    · simp only [hv]
      rw [h]
      decide
    · simp only [hv]
      rw [h]
      decide
  | some k =>
    rcases hsv : signatureValid env x with ⟨s1, b1⟩
    cases b1 with
    | false =>
      simp only [hsv]
      simp [abortErr, reset]
    | true =>
      have h1 := (signatureValid_spec env x s1 true hsv).1 rfl
      simp only [hsv]
      rcases hv : verifyEnd env s1 with ⟨t, bb⟩
      rcases verifyEnd_error env s1 t bb hv with h | h | h
      · simp only [hv]
        rw [h, h1.1]
        exact hx
      · simp only [hv]
        rw [h]
        decide
      · simp only [hv]
        rw [h]
        decide

theorem endFlush_facts (env : Env) (b : Bool) (s : UC) (herr : s.error = UPDATE_ERROR_OK) :
    (endFlush env b s).error ≠ UPDATE_ERROR_MD5 ∧
    (endFlush env b s).target_md5 = s.target_md5 := by
  unfold endFlush
  cases b with
  | false => simp [herr]
  | true =>
    rw [if_pos rfl]
    by_cases hb : 0 < bufferLen s
    · rw [if_pos hb]
      have hspec := writeBuffer_spec env s (writeBuffer env s).1 (writeBuffer env s).2
        (Prod.mk.eta).symm

      cases hwb : (writeBuffer env s).2 with
      | false =>
        obtain ⟨h1, h2, h3, h4, h5, h6, h7⟩ := hspec.1 hwb
        refine ⟨?_, by simpa using h5⟩
        rcases h4 with h | h | h <;> simp [h]
      | true =>
        obtain ⟨h1, h2, h3, h4, h5, h6, h7⟩ := hspec.2 hwb
        refine ⟨by simp [h1, herr], by simpa using h4⟩
    · rw [if_neg hb]
      simp [herr]

/-- C5: if an expected content hash has been set and differs from the hash
computed over the flushed content, `end` fails with `HashMismatch` even
when every byte was written successfully (session finished, no sticky
error); if no expected hash is set, `end` performs no hash comparison and
this check can never cause a failure: whatever else happens, the
resulting sticky error is never `HashMismatch`. -/
theorem C5_hash_check :
    (∀ (env : Env) (H : List Nat → String) (s : UC),
      s.error = UPDATE_ERROR_OK → 0 < s.size → isFinished s →
      0 < s.target_md5.length → s.target_md5 ≠ H s.md5fed →
      (endU env H false s).2 = false ∧ (endU env H false s).1.error = UPDATE_ERROR_MD5) ∧
    (∀ (env : Env) (H : List Nat → String) (b : Bool) (s : UC),
      s.error = UPDATE_ERROR_OK → s.target_md5 = "" →
      (endU env H b s).1.error ≠ UPDATE_ERROR_MD5) := by
  constructor
  · intro env H s herr hsz hfin htl hne
    have hg1 : ¬ (hasError s ∨ s.size = 0) := by
      simp only [hasError, herr, not_or]
      omega
    have hg2 : ¬ (¬ isFinished s ∧ ¬ (false : Bool)) := fun hh => hh.1 hfin
    have hred : endU env H false s = (abortErr UPDATE_ERROR_MD5 s, false) := by
      unfold endU
      rw [if_neg hg1, if_neg hg2]
      have hfl : endFlush env false s = s := rfl
      rw [hfl]
      unfold endVerify
      rw [if_pos ⟨htl, hne⟩]
    rw [hred]
    exact ⟨rfl, rfl⟩
  · intro env H b s herr ht
    unfold endU
    by_cases hg : hasError s ∨ s.size = 0
    · rw [if_pos hg]
      simp [herr]
    · rw [if_neg hg]
      by_cases hpre : ¬ isFinished s ∧ ¬ b
      · rw [if_pos hpre]
        simp [abortErr, reset]
      · rw [if_neg hpre]
        have hf := endFlush_facts env b s herr
        exact endVerify_ne_MD5 env H (endFlush env b s) hf.1 (hf.2.trans ht)

theorem C5_witness :
    ((endU envAll md5Empty false sessHash).2 = false ∧
      (endU envAll md5Empty false sessHash).1.error = UPDATE_ERROR_MD5) ∧
    (endU envAll md5Empty false (write envAll sessF20 sampleImage).1).1.error ≠
      UPDATE_ERROR_MD5 :=
  ⟨C5_hash_check.1 envAll md5Empty sessHash (by decide) (by decide) (by decide)
      (by decide) (by decide),
    C5_hash_check.2 envAll md5Empty false (write envAll sessF20 sampleImage).1
      (by decide) (by decide)⟩

theorem sub32_of_le (a b : Nat) (hb : b ≤ a) (h : a - b < 4294967296) :
    sub32 a b = a - b := by
  unfold sub32
  have he : a + 4294967296 - b = (a - b) + 4294967296 := by omega
  rw [he, Nat.add_mod_right, Nat.mod_eq_of_lt h]

theorem tryRead_stalls (k : Nat) :
    ∀ (f btr : Nat) (rest : ByteSource), f + k ≤ 299 →
      tryRead (List.replicate k [] ++ rest) f btr = tryRead rest (f + k) btr := by
  induction k with
  | zero => intro f btr rest _; simp [List.replicate]
  | succ n ih =>
    intro f btr rest h
    rw [List.replicate_succ, List.cons_append]
    unfold tryRead
    rw [if_pos (by simp)]
    rw [if_neg (by omega)]
    rw [ih (f + 1) btr rest (by omega)]
    have he : f + 1 + n = f + (n + 1) := by omega
    rw [he, tryRead.eq_def]

theorem tryRead_data (S : List Nat) (rest : ByteSource) (f btr : Nat)
    (h : (S.take btr).length ≠ 0) :
    tryRead (S :: rest) f btr = some (S.take btr, rest) := by
  unfold tryRead
  rw [if_neg h]

theorem tryRead_gives_up (rest : ByteSource) (btr : Nat) :
    tryRead (List.replicate 300 [] ++ rest) 0 btr = none := by
  have he : (List.replicate 300 ([] : List Nat)) ++ rest
      = List.replicate 299 ([] : List Nat) ++ ([] :: rest) := by
    rw [show (300 : Nat) = 299 + 1 from rfl, List.replicate_succ', List.append_assoc]
    rfl
  rw [he, tryRead_stalls 299 0 btr ([] :: rest) (by omega)]
  unfold tryRead
  rw [if_pos (by simp)]
  rw [if_pos (by omega)]

theorem flushTail_run (env : Env) (s : UC) (buf : List Nat) (skip : Nat) (psize : Nat)
    (hpart : s.partition = some ⟨psize⟩)
    (hcondE : env.hwEraseOk s.progress = true ∧ s.progress + SPI_FLASH_SEC_SIZE ≤ psize)
    (hcondW : env.hwWriteOk (s.progress + skip) = true ∧
      s.progress + skip + sub32 buf.length skip ≤ psize) :
    flushTail env s buf skip =
      ({ s with
          flash := fun i =>
            if s.progress + skip ≤ i ∧ i < s.progress + skip + sub32 buf.length skip then
              (buf.drop skip).getD (i - (s.progress + skip)) 0
            else if s.progress ≤ i ∧ i < s.progress + SPI_FLASH_SEC_SIZE then 255
            else s.flash i,
          md5fed := s.md5fed ++
            (if skip ≠ 0 then ESP_IMAGE_HEADER_MAGIC :: buf.tail else buf),
          progress := s.progress +
            (if skip ≠ 0 then ESP_IMAGE_HEADER_MAGIC :: buf.tail else buf).length,
          buffer := some [] }, true) := by
  unfold flushTail partitionEraseRange partitionWrite
  rw [hpart]
  dsimp only
  rw [if_pos hcondE]
  dsimp only
  rw [if_pos hcondW]

theorem writeBuffer_flush_mid (env : Env) (s : UC) (psize : Nat)
    (hpart : s.partition = some ⟨psize⟩)
    (hcase : ¬ (s.progress = 0 ∧ s.command = U_FLASH))
    (hE : env.hwEraseOk s.progress = true) (hW : env.hwWriteOk s.progress = true)
    (hbE : s.progress + SPI_FLASH_SEC_SIZE ≤ psize)
    (hbW : s.progress + bufferLen s ≤ psize)
    (hb32 : bufferLen s < 4294967296) :
    ∃ t, writeBuffer env s = (t, true) ∧
      t.progress = s.progress + bufferLen s ∧ t.buffer = some [] ∧
      t.error = s.error ∧ t.size = s.size ∧ t.command = s.command ∧
      t.partition = s.partition ∧ t.pubKey = s.pubKey ∧
      t.target_md5 = s.target_md5 ∧ t.skipBuffer = s.skipBuffer ∧
      (∀ i, i < s.progress → t.flash i = s.flash i) ∧
      (∀ i, s.progress ≤ i → i < s.progress + bufferLen s →
        t.flash i = (s.buffer.getD []).getD (i - s.progress) 0) := by
  have hsub : sub32 (s.buffer.getD []).length 0 = bufferLen s := by
    rw [sub32_of_le _ 0 (Nat.zero_le _) (by rw [Nat.sub_zero]; exact hb32), Nat.sub_zero]
    rfl
  have hrun := flushTail_run env s (s.buffer.getD []) 0 psize hpart ⟨hE, hbE⟩
    ⟨by rw [Nat.add_zero]; exact hW, by rw [Nat.add_zero, hsub]; exact hbW⟩
  have hwb : writeBuffer env s = flushTail env s (s.buffer.getD []) 0 := by
    unfold writeBuffer
    rw [if_neg hcase]
  rw [hwb, hrun]
  refine ⟨_, rfl, ?_, rfl, rfl, rfl, rfl, rfl, rfl, rfl, rfl, ?_, ?_⟩
  · show s.progress + (if (0 : Nat) ≠ 0 then _ else s.buffer.getD []).length = _
    rw [if_neg (by omega)]
    rfl
  · intro i hi
    show (if s.progress + 0 ≤ i ∧ i < s.progress + 0 + sub32 (s.buffer.getD []).length 0
        then (List.drop 0 (s.buffer.getD [])).getD (i - (s.progress + 0)) 0
        else if s.progress ≤ i ∧ i < s.progress + SPI_FLASH_SEC_SIZE then 255
        else s.flash i) = s.flash i
    rw [if_neg (by omega), if_neg (by omega)]
  · intro i h1 h2
    show (if s.progress + 0 ≤ i ∧ i < s.progress + 0 + sub32 (s.buffer.getD []).length 0
        then (List.drop 0 (s.buffer.getD [])).getD (i - (s.progress + 0)) 0
        else if s.progress ≤ i ∧ i < s.progress + SPI_FLASH_SEC_SIZE then 255
        else s.flash i) = (s.buffer.getD []).getD (i - s.progress) 0
    rw [hsub, if_pos ⟨by omega, by omega⟩, List.drop_zero, Nat.add_zero]

theorem writeBuffer_flush_first (env : Env) (s : UC) (psize : Nat)
    (hpart : s.partition = some ⟨psize⟩)
    (hprog : s.progress = 0) (hcmd : s.command = U_FLASH)
    (hmagic : (s.buffer.getD []).headD 0 = ESP_IMAGE_HEADER_MAGIC)
    (h16 : ENCRYPTED_BLOCK_SIZE ≤ bufferLen s)
    (hE : env.hwEraseOk s.progress = true)
    (hW : env.hwWriteOk (s.progress + ENCRYPTED_BLOCK_SIZE) = true)
    (hbE : s.progress + SPI_FLASH_SEC_SIZE ≤ psize)
    (hbW : s.progress + bufferLen s ≤ psize)
    (hb32 : bufferLen s < 4294967296) :
    ∃ t, writeBuffer env s = (t, true) ∧
      t.progress = bufferLen s ∧ t.buffer = some [] ∧
      t.error = s.error ∧ t.size = s.size ∧ t.command = s.command ∧
      t.partition = s.partition ∧ t.pubKey = s.pubKey ∧
      t.target_md5 = s.target_md5 ∧
      t.skipBuffer = some ((s.buffer.getD []).take ENCRYPTED_BLOCK_SIZE) ∧
      (∀ i, i < ENCRYPTED_BLOCK_SIZE → t.flash i = 255) ∧
      (∀ i, ENCRYPTED_BLOCK_SIZE ≤ i → i < bufferLen s →
        t.flash i = (s.buffer.getD []).getD i 0) := by
  have c16 : ENCRYPTED_BLOCK_SIZE = 16 := rfl
  have c4096 : SPI_FLASH_SEC_SIZE = 4096 := rfl
  have hsub : sub32 (s.buffer.getD []).length ENCRYPTED_BLOCK_SIZE
      = bufferLen s - ENCRYPTED_BLOCK_SIZE :=
    sub32_of_le (bufferLen s) ENCRYPTED_BLOCK_SIZE h16 (by omega)
  have hne : s.buffer.getD [] ≠ [] := by
    intro hc
    rw [bufferLen, hc] at h16
    simp [ENCRYPTED_BLOCK_SIZE] at h16
  have hcons : ESP_IMAGE_HEADER_MAGIC :: (s.buffer.getD []).tail = s.buffer.getD [] := by
    rcases hbuf : s.buffer.getD [] with _ | ⟨a, tl⟩
    · exact absurd hbuf hne
    · rw [hbuf] at hmagic
      simp only [List.headD_cons] at hmagic
      rw [← hmagic]
      rfl
  have hrun := flushTail_run env
    { s with skipBuffer := some ((s.buffer.getD []).take ENCRYPTED_BLOCK_SIZE) }
    (s.buffer.getD []) ENCRYPTED_BLOCK_SIZE psize hpart ⟨hE, hbE⟩
    ⟨hW, by
      show s.progress + ENCRYPTED_BLOCK_SIZE +
        sub32 (s.buffer.getD []).length ENCRYPTED_BLOCK_SIZE ≤ psize
      rw [hsub]
      omega⟩
  have hwb : writeBuffer env s = flushTail env
      { s with skipBuffer := some ((s.buffer.getD []).take ENCRYPTED_BLOCK_SIZE) }
      (s.buffer.getD []) ENCRYPTED_BLOCK_SIZE := by
    unfold writeBuffer
    rw [if_pos ⟨hprog, hcmd⟩, if_neg (fun hc => hc hmagic)]
  rw [hwb, hrun]
  refine ⟨_, rfl, ?_, rfl, rfl, rfl, rfl, rfl, rfl, rfl, rfl, ?_, ?_⟩
  · show s.progress + (if ENCRYPTED_BLOCK_SIZE ≠ 0 then
        ESP_IMAGE_HEADER_MAGIC :: (s.buffer.getD []).tail
      else s.buffer.getD []).length = bufferLen s
    rw [if_pos (by omega), hcons, hprog, Nat.zero_add]
    rfl
  · intro i hi
    show (if s.progress + ENCRYPTED_BLOCK_SIZE ≤ i ∧
          i < s.progress + ENCRYPTED_BLOCK_SIZE +
            sub32 (s.buffer.getD []).length ENCRYPTED_BLOCK_SIZE
        then (List.drop ENCRYPTED_BLOCK_SIZE (s.buffer.getD [])).getD
            (i - (s.progress + ENCRYPTED_BLOCK_SIZE)) 0
        else if s.progress ≤ i ∧ i < s.progress + SPI_FLASH_SEC_SIZE then 255
        else s.flash i) = 255
    rw [if_neg (by omega), if_pos ⟨by omega, by omega⟩]
  · intro i h1 h2
    show (if s.progress + ENCRYPTED_BLOCK_SIZE ≤ i ∧
          i < s.progress + ENCRYPTED_BLOCK_SIZE +
            sub32 (s.buffer.getD []).length ENCRYPTED_BLOCK_SIZE
        then (List.drop ENCRYPTED_BLOCK_SIZE (s.buffer.getD [])).getD
            (i - (s.progress + ENCRYPTED_BLOCK_SIZE)) 0
        else if s.progress ≤ i ∧ i < s.progress + SPI_FLASH_SEC_SIZE then 255
        else s.flash i) = (s.buffer.getD []).getD i 0
    rw [hsub, if_pos ⟨by omega, by omega⟩]
    rw [List.getD_eq_getElem?_getD, List.getElem?_drop, ← List.getD_eq_getElem?_getD]
    have he : ENCRYPTED_BLOCK_SIZE + (i - (s.progress + ENCRYPTED_BLOCK_SIZE)) = i := by
      omega
    rw [he]

theorem streamLoopF_succ (env : Env) (fuel : Nat) (s : UC) (src : ByteSource)
    (written : Nat) :
    streamLoopF env (fuel + 1) s src written =
      (if remaining s = 0 then (s, written)
        else
          match tryRead src 0 (min (SPI_FLASH_SEC_SIZE - bufferLen s) (remaining s)) with
          | none => (abortErr UPDATE_ERROR_STREAM s, written)
          | some (chunk, restS) =>
            let s1 := { s with buffer := some ((s.buffer.getD []) ++ chunk) }
            if bufferLen s1 = remaining s1 ∨ bufferLen s1 = SPI_FLASH_SEC_SIZE then
              match writeBuffer env s1 with
              | (s2, false) => (s2, written)
              | (s2, true) => streamLoopF env fuel s2 restS (written + chunk.length)
            else streamLoopF env fuel s1 restS (written + chunk.length)) := rfl

theorem writeLoopF_succ (env : Env) (fuel : Nat) (s : UC) (rest : List Nat) (len : Nat) :
    writeLoopF env (fuel + 1) s rest len =
      (if SPI_FLASH_SEC_SIZE < bufferLen s + rest.length then
          let toBuff := SPI_FLASH_SEC_SIZE - bufferLen s
          let s1 := { s with buffer := some ((s.buffer.getD []) ++ rest.take toBuff) }
          match writeBuffer env s1 with
          | (s2, false) => (s2, len - rest.length)
          | (s2, true) => writeLoopF env fuel s2 (rest.drop toBuff) len
        else
          let s1 := { s with buffer := some ((s.buffer.getD []) ++ rest) }
          if bufferLen s1 = remaining s1 then
            match writeBuffer env s1 with
            | (s2, false) => (s2, len - rest.length)
            | (s2, true) => (s2, len)
          else (s1, len)) := rfl

theorem writeStream_one_read_completes (env : Env) (S : List Nat) (psize : Nat) (s : UC)
    (hE : env.hwEraseOk 0 = true) (hW : env.hwWriteOk 0 = true)
    (herr : s.error = UPDATE_ERROR_OK) (hbuf : s.buffer = some [])
    (hprog : s.progress = 0) (hsz : s.size = S.length) (hcmd : s.command = U_SPIFFS)
    (hpart : s.partition = some ⟨psize⟩) (hS : 0 < S.length)
    (hS2 : S.length ≤ SPI_FLASH_SEC_SIZE) (hp : SPI_FLASH_SEC_SIZE ≤ psize) :
    ((writeStream env s (List.replicate 299 [] ++ [S])).2 = S.length ∧
      (writeStream env s (List.replicate 299 [] ++ [S])).1.error = UPDATE_ERROR_OK ∧
      (writeStream env s (List.replicate 299 [] ++ [S])).1.progress = S.length) := by
  have c4096 : SPI_FLASH_SEC_SIZE = 4096 := rfl
  have hbl : bufferLen s = 0 := by rw [bufferLen, hbuf]; rfl
  have hrem : remaining s = S.length := by rw [remaining, hsz, hprog]; omega
  have hgate : ¬ (hasError s ∨ ¬ isRunning s) := by
    rw [not_or, not_not]
    exact ⟨fun hc => hc herr, by rw [isRunning, hsz]; exact hS⟩
  have hvh : verifyHeader (streamPeek (List.replicate 299 [] ++ [S])) s = (s, true) := by
    unfold verifyHeader
    rw [hcmd]
    rw [if_neg (by decide), if_pos rfl]
  have hlen : (List.replicate 299 ([] : List Nat) ++ [S]).length = 300 := by
    rw [List.length_append, List.length_replicate]
    rfl
  have hbtr : min (SPI_FLASH_SEC_SIZE - bufferLen s) (remaining s) = S.length := by
    rw [hbl, hrem]
    omega
  have htry : tryRead (List.replicate 299 [] ++ [S]) 0
      (min (SPI_FLASH_SEC_SIZE - bufferLen s) (remaining s)) = some (S, []) := by
    rw [hbtr, tryRead_stalls 299 0 S.length [S] (by omega)]
    rw [tryRead_data S [] 299 S.length (by rw [List.take_length]; omega)]
    rw [List.take_length]
  have hflush := writeBuffer_flush_mid env
    { s with buffer := some (s.buffer.getD [] ++ S) } psize
    (by show s.partition = _; exact hpart)
    (by show ¬ (s.progress = 0 ∧ s.command = U_FLASH)
        rw [hcmd]
        exact fun hc => by exact absurd hc.2 (by decide))
    (by show env.hwEraseOk s.progress = true; rw [hprog]; exact hE)
    (by show env.hwWriteOk s.progress = true; rw [hprog]; exact hW)
    (by show s.progress + SPI_FLASH_SEC_SIZE ≤ psize; omega)
    (by show s.progress + bufferLen { s with buffer := some (s.buffer.getD [] ++ S) } ≤ psize
        rw [bufferLen, hbuf, hprog]
        simp
        omega)
    (by rw [bufferLen, hbuf]; simp; omega)
  obtain ⟨t, hwb, htp, htb, hte, hts, htc, htpart, htpk, httm, htsk, hfl1, hfl2⟩ := hflush
  have hrun : writeStream env s (List.replicate 299 [] ++ [S]) = (t, S.length) := by
    unfold writeStream streamLoop
    rw [if_neg hgate, hvh]
    dsimp only
    rw [hlen, streamLoopF_succ]
    rw [if_neg (by rw [hrem]; omega)]
    rw [htry]
    dsimp only
    rw [if_pos (Or.inl (by
      show bufferLen { s with buffer := some (s.buffer.getD [] ++ S) } = remaining _
      rw [bufferLen, remaining, hbuf]
      show ([] ++ S).length = s.size - s.progress
      rw [hsz, hprog, List.nil_append]
      omega))]
    rw [hwb]
    dsimp only
    rw [show (300 : Nat) = 299 + 1 from rfl, streamLoopF_succ]
    rw [if_pos (by
      show remaining t = 0
      rw [remaining, hts, htp, hsz, hprog]
      rw [bufferLen, hbuf]
      show S.length - (0 + ([] ++ S).length) = 0
      rw [List.nil_append]
      omega)]
    rw [Nat.zero_add]
  rw [hrun]
  refine ⟨rfl, ?_, ?_⟩
  · rw [hte]
    show s.error = _
    exact herr
  · rw [htp, hprog]
    rw [bufferLen]
    show 0 + ((some (s.buffer.getD [] ++ S)).getD []).length = S.length
    rw [Option.getD_some, hbuf]
    show 0 + (((some []).getD []) ++ S).length = S.length
    rw [Option.getD_some, List.nil_append]
    omega

theorem writeStream_stalled_aborts (env : Env) (S : List Nat) (s : UC) (rest : ByteSource)
    (herr : s.error = UPDATE_ERROR_OK) (hprog : s.progress = 0)
    (hsz : s.size = S.length) (hcmd : s.command = U_SPIFFS) (hS : 0 < S.length) :
    writeStream env s (List.replicate 300 [] ++ rest) = (abortErr UPDATE_ERROR_STREAM s, 0) := by
  have hrem : remaining s = S.length := by rw [remaining, hsz, hprog]; omega
  have hgate : ¬ (hasError s ∨ ¬ isRunning s) := by
    rw [not_or, not_not]
    exact ⟨fun hc => hc herr, by rw [isRunning, hsz]; exact hS⟩
  have hvh : verifyHeader (streamPeek (List.replicate 300 [] ++ rest)) s = (s, true) := by
    unfold verifyHeader
    rw [hcmd]
    rw [if_neg (by decide), if_pos rfl]
  unfold writeStream streamLoop
  rw [if_neg hgate, hvh]
  dsimp only
  rw [streamLoopF_succ]
  rw [if_neg (by rw [hrem]; omega)]
  rw [tryRead_gives_up rest (min (SPI_FLASH_SEC_SIZE - bufferLen s) (remaining s))]

/-- C3: in stream ingestion, a source that returns 0 bytes exactly 299
consecutive times before a read attempt succeeds (delivering the whole
remaining image) lets the session complete normally — the call returns
the image length, no sticky error is recorded and progress reaches the
declared size — while a source that opens with a run of 300 consecutive
zero-byte reads aborts the session with the `StreamTimeout` error and
returns the bytes written so far (0 in this run), whatever the source
would have delivered afterwards. -/
theorem C3_stream_stall_budget (env : Env) (S : List Nat) (psize : Nat) (s : UC)
    (hE : env.hwEraseOk 0 = true) (hW : env.hwWriteOk 0 = true)
    (herr : s.error = UPDATE_ERROR_OK) (hbuf : s.buffer = some [])
    (hprog : s.progress = 0) (hsz : s.size = S.length) (hcmd : s.command = U_SPIFFS)
    (hpart : s.partition = some ⟨psize⟩) (hS : 0 < S.length)
    (hS2 : S.length ≤ SPI_FLASH_SEC_SIZE) (hp : SPI_FLASH_SEC_SIZE ≤ psize) :
    ((writeStream env s (List.replicate 299 [] ++ [S])).2 = S.length ∧
      (writeStream env s (List.replicate 299 [] ++ [S])).1.error = UPDATE_ERROR_OK ∧
      (writeStream env s (List.replicate 299 [] ++ [S])).1.progress = S.length) ∧
    (∀ rest : ByteSource,
      (writeStream env s (List.replicate 300 [] ++ rest)).2 = 0 ∧
      (writeStream env s (List.replicate 300 [] ++ rest)).1.error = UPDATE_ERROR_STREAM) :=
  ⟨writeStream_one_read_completes env S psize s hE hW herr hbuf hprog hsz hcmd hpart
      hS hS2 hp,
    fun rest => by
      rw [writeStream_stalled_aborts env S s rest herr hprog hsz hcmd hS]
      exact ⟨rfl, rfl⟩⟩

set_option maxRecDepth 8000 in
theorem C3_witness :
    (((writeStream envAll sess30 (List.replicate 299 [] ++ [List.range 30])).2 =
        (List.range 30).length ∧
      (writeStream envAll sess30 (List.replicate 299 [] ++ [List.range 30])).1.error =
        UPDATE_ERROR_OK ∧
      (writeStream envAll sess30 (List.replicate 299 [] ++ [List.range 30])).1.progress =
        (List.range 30).length) ∧
      ((writeStream envAll sess30 (List.replicate 300 [] ++ [])).2 = 0 ∧
        (writeStream envAll sess30 (List.replicate 300 [] ++ [])).1.error =
          UPDATE_ERROR_STREAM)) :=
  ⟨(C3_stream_stall_budget envAll (List.range 30) 8192 sess30 (by decide) (by decide)
      (by decide) (by decide) (by decide) (by decide) (by decide) (by decide)
      (by decide) (by decide) (by decide)).1,
    (C3_stream_stall_budget envAll (List.range 30) 8192 sess30 (by decide) (by decide)
      (by decide) (by decide) (by decide) (by decide) (by decide) (by decide)
      (by decide) (by decide) (by decide)).2 []⟩

theorem verifyHeader_true (d : Nat) (s t : UC) (h : verifyHeader d s = (t, true)) :
    t = s := by
  unfold verifyHeader at h
  split at h
  · split at h
    · simp at h
    · simp only [Prod.mk.injEq] at h
      exact h.1.symm
  · split at h
    · simp only [Prod.mk.injEq] at h
      exact h.1.symm
    · simp at h

theorem writeLoopF_ErrIdle (env : Env) (fuel : Nat) :
    ∀ (s : UC) (rest : List Nat) (len : Nat), s.error = UPDATE_ERROR_OK →
      ErrIdle ((writeLoopF env fuel s rest len).1) := by
  induction fuel with
  | zero =>
    intro s rest len herr hc
    exact absurd herr hc
  | succ n ih =>
    intro s rest len herr
    rw [writeLoopF_succ]
    by_cases hgt : SPI_FLASH_SEC_SIZE < bufferLen s + rest.length
    · rw [if_pos hgt]
      dsimp only
      split
      next s2 heq =>
        obtain ⟨h1, h2, h3, _⟩ := (writeBuffer_spec env _ s2 false heq).1 rfl
        exact fun _ => ⟨h1, h2, h3⟩
      next s2 heq =>
        exact ih s2 _ len (((writeBuffer_spec env _ s2 true heq).2 rfl).1.trans herr)
    · rw [if_neg hgt]
      dsimp only
      by_cases hfl : bufferLen { s with buffer := some ((s.buffer.getD []) ++ rest) }
          = remaining { s with buffer := some ((s.buffer.getD []) ++ rest) }
      · rw [if_pos hfl]
        split
        next s2 heq =>
          obtain ⟨h1, h2, h3, _⟩ := (writeBuffer_spec env _ s2 false heq).1 rfl
          exact fun _ => ⟨h1, h2, h3⟩
        next s2 heq =>
          intro hc
          exact absurd (((writeBuffer_spec env _ s2 true heq).2 rfl).1.trans herr) hc
      · rw [if_neg hfl]
        intro hc
        exact absurd herr hc

theorem streamLoopF_ErrIdle (env : Env) (fuel : Nat) :
    ∀ (s : UC) (src : ByteSource) (w : Nat), s.error = UPDATE_ERROR_OK →
      ErrIdle ((streamLoopF env fuel s src w).1) := by
  induction fuel with
  | zero =>
    intro s src w herr hc
    exact absurd herr hc
  | succ n ih =>
    intro s src w herr
    rw [streamLoopF_succ]
    by_cases hrem : remaining s = 0
    · rw [if_pos hrem]
      intro hc
      exact absurd herr hc
    · rw [if_neg hrem]
      split
      next htr => exact ErrIdle_abortErr _ _
      next chunk restS htr =>
        dsimp only
        by_cases hfl : bufferLen { s with buffer := some ((s.buffer.getD []) ++ chunk) }
              = remaining { s with buffer := some ((s.buffer.getD []) ++ chunk) }
            ∨ bufferLen { s with buffer := some ((s.buffer.getD []) ++ chunk) }
              = SPI_FLASH_SEC_SIZE
        · rw [if_pos hfl]
          split
          next s2 heq =>
            obtain ⟨h1, h2, h3, _⟩ := (writeBuffer_spec env _ s2 false heq).1 rfl
            exact fun _ => ⟨h1, h2, h3⟩
          next s2 heq =>
            exact ih s2 restS _ (((writeBuffer_spec env _ s2 true heq).2 rfl).1.trans herr)
        · rw [if_neg hfl]
          exact ih _ restS _ herr

theorem signatureValid_ErrIdle (env : Env) (x s1 : UC) (h : signatureValid env x = (s1, true))
    (hx : ErrIdle x) : ErrIdle s1 := by
  have hspec := (signatureValid_spec env x s1 true h).1 rfl
  intro hc
  obtain ⟨he, hs, hp, hb, _⟩ := hspec
  obtain ⟨a1, a2, a3⟩ := hx (by rw [← he]; exact hc)
  exact ⟨hs.trans a1, hp.trans a2, hb.trans a3⟩

theorem endVerify_ErrIdle (env : Env) (H : List Nat → String) (x : UC)
    (hx : ErrIdle x) : ErrIdle ((endVerify env H x).1) := by
  unfold endVerify
  split
  · exact ErrIdle_abortErr _ _
  · split
    · split
      next s1 heq => exact ErrIdle_abortErr _ _
      next s1 heq =>
        rcases hv : verifyEnd env s1 with ⟨t, bb⟩
        exact verifyEnd_ErrIdle env s1 t bb hv (signatureValid_ErrIdle env x s1 heq hx)
    · rcases hv : verifyEnd env x with ⟨t, bb⟩
      exact verifyEnd_ErrIdle env x t bb hv hx

theorem endFlush_ErrIdle (env : Env) (b : Bool) (s : UC)
    (herr : s.error = UPDATE_ERROR_OK) : ErrIdle (endFlush env b s) := by
  unfold endFlush
  cases b with
  | false =>
    intro hc
    exact absurd herr hc
  | true =>
    rw [if_pos rfl]
    by_cases hb : 0 < bufferLen s
    · rw [if_pos hb]
      rcases hwb : writeBuffer env s with ⟨s2, b2⟩
      have hspec := writeBuffer_spec env s s2 b2 hwb
      cases b2 with
      | false =>
        obtain ⟨h1, h2, h3, _⟩ := hspec.1 rfl
        intro hc
        refine ⟨?_, ?_, ?_⟩
        · show progressV s2 = 0
          rw [progressV, h2]
        · exact h2
        · exact h3
      | true =>
        intro hc
        exact absurd (((hspec.2 rfl).1).trans herr) hc
    · rw [if_neg hb]
      intro hc
      exact absurd herr hc

theorem begin_ErrIdle (nextOta spiffsPart fatPart : Option Partition) (sz command : Nat)
    (s : UC) (hs : ErrIdle s) :
    ErrIdle (begin nextOta spiffsPart fatPart sz command s).1 := by
  unfold begin beginSized
  split
  · exact hs
  · split
    · exact fun _ => ⟨rfl, rfl, rfl⟩
    · split
      · split
        · exact fun _ => ⟨rfl, rfl, rfl⟩
        · split
          · intro hc
            exact absurd rfl hc
          · split
            · exact fun _ => ⟨rfl, rfl, rfl⟩
            · intro hc
              exact absurd rfl hc
      · split
        · split
          · split
            · intro hc
              exact absurd rfl hc
            · split
              · exact fun _ => ⟨rfl, rfl, rfl⟩
              · intro hc
                exact absurd rfl hc
          · split
            · split
              · intro hc
                exact absurd rfl hc
              · split
                · exact fun _ => ⟨rfl, rfl, rfl⟩
                · intro hc
                  exact absurd rfl hc
            · exact fun _ => ⟨rfl, rfl, rfl⟩
        · exact fun _ => ⟨rfl, rfl, rfl⟩

/-- C10: every public operation — `begin`, `write`, `writeFromStream`, `end`
and `abort` — preserves the invariant that a nonzero sticky error implies
the idle state: declared size 0, progress 0 and the pending-write buffer
freed (so its length is 0); an errored engine is therefore always ready
for a fresh `begin`. -/
theorem C10_error_implies_idle (env : Env) (H : List Nat → String)
    (nextOta spiffsPart fatPart : Option Partition) (sz command : Nat)
    (data : List Nat) (src : ByteSource) (b : Bool) (s : UC) (hs : ErrIdle s) :
    ErrIdle (begin nextOta spiffsPart fatPart sz command s).1 ∧
    ErrIdle (write env s data).1 ∧
    ErrIdle (writeStream env s src).1 ∧
    ErrIdle (endU env H b s).1 ∧
    ErrIdle (abortU s) := by
  refine ⟨begin_ErrIdle _ _ _ _ _ _ hs, ?_, ?_, ?_, ErrIdle_abortErr _ _⟩
  · unfold write
    by_cases hg : hasError s ∨ ¬ isRunning s
    · rw [if_pos hg]
      exact hs
    · rw [if_neg hg]
      have herr : s.error = UPDATE_ERROR_OK := not_not.mp (not_or.mp hg).1
      by_cases hsp : remaining s < data.length
      · rw [if_pos hsp]
        exact ErrIdle_abortErr _ _
      · rw [if_neg hsp]
        exact writeLoopF_ErrIdle env _ s data data.length herr
  · unfold writeStream
    by_cases hg : hasError s ∨ ¬ isRunning s
    · rw [if_pos hg]
      exact hs
    · rw [if_neg hg]
      have herr : s.error = UPDATE_ERROR_OK := not_not.mp (not_or.mp hg).1
      rcases hvh : verifyHeader (streamPeek src) s with ⟨s1, b1⟩
      cases b1 with
      | false => exact ErrIdle_reset _
      | true =>
        have hs1 : s1 = s := verifyHeader_true _ _ _ hvh
        unfold streamLoop
        exact streamLoopF_ErrIdle env _ s1 src 0 (by rw [hs1]; exact herr)
  · unfold endU
    by_cases hg : hasError s ∨ s.size = 0
    · rw [if_pos hg]
      exact hs
    · rw [if_neg hg]
      have herr : s.error = UPDATE_ERROR_OK := not_not.mp (not_or.mp hg).1
      by_cases hpre : ¬ isFinished s ∧ ¬ b
      · rw [if_pos hpre]
        exact ErrIdle_abortErr _ _
      · rw [if_neg hpre]
        exact endVerify_ErrIdle env H _ (endFlush_ErrIdle env b s herr)

theorem C10_witness :
    ErrIdle (begin (some part8k) none none 20 U_FLASH erroredIdle).1 ∧
    ErrIdle (write envAll erroredIdle sampleImage).1 ∧
    ErrIdle (writeStream envAll erroredIdle [sampleImage]).1 ∧
    ErrIdle (endU envAll md5Empty false erroredIdle).1 ∧
    ErrIdle (abortU erroredIdle) :=
  C10_error_implies_idle envAll md5Empty (some part8k) none none 20 U_FLASH
    sampleImage [sampleImage] false erroredIdle (by decide)

theorem noEarlyBoot_abortErr (e : Nat) (x : UC) : noEarlyBoot (abortErr e x) :=
  fun _ h => absurd h (Nat.lt_irrefl 0)

theorem noEarlyBoot_reset (x : UC) : noEarlyBoot (reset x) :=
  fun _ h => absurd h (Nat.lt_irrefl 0)

theorem writeBuffer_noEarlyBoot (env : Env) (s : UC) (hs : noEarlyBoot s) :
    noEarlyBoot ((writeBuffer env s).1) := by
  have c16 : ENCRYPTED_BLOCK_SIZE = 16 := rfl
  have c4096 : SPI_FLASH_SEC_SIZE = 4096 := rfl
  unfold writeBuffer flushTail
  split
  next h1 =>
    split
    · exact noEarlyBoot_abortErr _ _
    · split
      · exact noEarlyBoot_abortErr _ _
      next fl1 heqE =>
        split
        · exact noEarlyBoot_abortErr _ _
        next fl2 heqW =>
          have hfl1 : fl1 = fun i =>
              if s.progress ≤ i ∧ i < s.progress + SPI_FLASH_SEC_SIZE then 255
              else s.flash i := by
            unfold partitionEraseRange at heqE
            split at heqE
            · exact absurd heqE (by simp)
            · split at heqE
              · exact (Option.some.inj heqE).symm
              · exact absurd heqE (by simp)
          have hfl2 : fl2 = fun i =>
              if s.progress + ENCRYPTED_BLOCK_SIZE ≤ i ∧
                  i < s.progress + ENCRYPTED_BLOCK_SIZE +
                    sub32 (s.buffer.getD []).length ENCRYPTED_BLOCK_SIZE then
                (List.drop ENCRYPTED_BLOCK_SIZE (s.buffer.getD [])).getD
                  (i - (s.progress + ENCRYPTED_BLOCK_SIZE)) 0
              else fl1 i := by
            unfold partitionWrite at heqW
            split at heqW
            · exact absurd heqW (by simp)
            · split at heqW
              · exact (Option.some.inj heqW).symm
              · exact absurd heqW (by simp)
          intro hcm hpr
          show fl2 0 = 255
          rw [hfl2]
          dsimp only
          rw [if_neg (by omega), hfl1]
          dsimp only
          rw [if_pos (by omega)]
  next h1 =>
    split
    · exact noEarlyBoot_abortErr _ _
    next fl1 heqE =>
      split
      · exact noEarlyBoot_abortErr _ _
      next fl2 heqW =>
        have hfl1 : fl1 = fun i =>
            if s.progress ≤ i ∧ i < s.progress + SPI_FLASH_SEC_SIZE then 255
            else s.flash i := by
          unfold partitionEraseRange at heqE
          split at heqE
          · exact absurd heqE (by simp)
          · split at heqE
            · exact (Option.some.inj heqE).symm
            · exact absurd heqE (by simp)
        have hfl2 : fl2 = fun i =>
            if s.progress + 0 ≤ i ∧
                i < s.progress + 0 + sub32 (s.buffer.getD []).length 0 then
              (List.drop 0 (s.buffer.getD [])).getD (i - (s.progress + 0)) 0
            else fl1 i := by
          unfold partitionWrite at heqW
          split at heqW
          · exact absurd heqW (by simp)
          · split at heqW
            · exact (Option.some.inj heqW).symm
            · exact absurd heqW (by simp)
        intro hcm hpr
        have hcm2 : s.command = U_FLASH := hcm
        have hpr0 : 0 < s.progress := by
          rcases Nat.eq_zero_or_pos s.progress with h0 | h0
          · exact absurd ⟨h0, hcm2⟩ h1
          · exact h0
        show fl2 0 = 255
        rw [hfl2]
        dsimp only
        rw [if_neg (by omega), hfl1]
        dsimp only
        rw [if_neg (by omega)]
        exact hs hcm2 hpr0

theorem writeLoopF_noEarlyBoot (env : Env) (fuel : Nat) :
    ∀ (s : UC) (rest : List Nat) (len : Nat), noEarlyBoot s →
      noEarlyBoot ((writeLoopF env fuel s rest len).1) := by
  induction fuel with
  | zero => intro s rest len hs; exact hs
  | succ n ih =>
    intro s rest len hs
    rw [writeLoopF_succ]
    by_cases hgt : SPI_FLASH_SEC_SIZE < bufferLen s + rest.length
    · rw [if_pos hgt]
      dsimp only
      split
      next s2 heq =>
        have h2 := writeBuffer_noEarlyBoot env
          { s with buffer := some ((s.buffer.getD []) ++
              rest.take (SPI_FLASH_SEC_SIZE - bufferLen s)) } hs
        rw [heq] at h2
        exact h2
      next s2 heq =>
        have h2 := writeBuffer_noEarlyBoot env
          { s with buffer := some ((s.buffer.getD []) ++
              rest.take (SPI_FLASH_SEC_SIZE - bufferLen s)) } hs
        rw [heq] at h2
        exact ih s2 _ len h2
    · rw [if_neg hgt]
      dsimp only
      split
      · split
        next s2 heq =>
          have h2 := writeBuffer_noEarlyBoot env
            { s with buffer := some ((s.buffer.getD []) ++ rest) } hs
          rw [heq] at h2
          exact h2
        next s2 heq =>
          have h2 := writeBuffer_noEarlyBoot env
            { s with buffer := some ((s.buffer.getD []) ++ rest) } hs
          rw [heq] at h2
          exact h2
      · exact hs

theorem streamLoopF_noEarlyBoot (env : Env) (fuel : Nat) :
    ∀ (s : UC) (src : ByteSource) (w : Nat), noEarlyBoot s →
      noEarlyBoot ((streamLoopF env fuel s src w).1) := by
  induction fuel with
  | zero => intro s src w hs; exact hs
  | succ n ih =>
    intro s src w hs
    rw [streamLoopF_succ]
    by_cases hrem : remaining s = 0
    · rw [if_pos hrem]
      exact hs
    · rw [if_neg hrem]
      split
      · exact noEarlyBoot_abortErr _ _
      next chunk restS htr =>
        dsimp only
        split
        · split
          next s2 heq =>
            have h2 := writeBuffer_noEarlyBoot env
              { s with buffer := some ((s.buffer.getD []) ++ chunk) } hs
            rw [heq] at h2
            exact h2
          next s2 heq =>
            have h2 := writeBuffer_noEarlyBoot env
              { s with buffer := some ((s.buffer.getD []) ++ chunk) } hs
            rw [heq] at h2
            exact ih s2 restS _ h2
        · exact ih _ restS _ hs

theorem begin_noEarlyBoot (nextOta spiffsPart fatPart : Option Partition)
    (sz command : Nat) (s : UC) (hs : noEarlyBoot s) :
    noEarlyBoot (begin nextOta spiffsPart fatPart sz command s).1 := by
  unfold begin beginSized
  split
  · exact hs
  · split
    · exact fun _ h => absurd h (Nat.lt_irrefl 0)
    · split
      · split
        · exact fun _ h => absurd h (Nat.lt_irrefl 0)
        · split
          · exact fun _ h => absurd h (Nat.lt_irrefl 0)
          · split
            · exact fun _ h => absurd h (Nat.lt_irrefl 0)
            · exact fun _ h => absurd h (Nat.lt_irrefl 0)
      · split
        · split
          · split
            · exact fun _ h => absurd h (Nat.lt_irrefl 0)
            · split
              · exact fun _ h => absurd h (Nat.lt_irrefl 0)
              · exact fun _ h => absurd h (Nat.lt_irrefl 0)
          · split
            · split
              · exact fun _ h => absurd h (Nat.lt_irrefl 0)
              · split
                · exact fun _ h => absurd h (Nat.lt_irrefl 0)
                · exact fun _ h => absurd h (Nat.lt_irrefl 0)
            · exact fun _ h => absurd h (Nat.lt_irrefl 0)
        · exact fun _ h => absurd h (Nat.lt_irrefl 0)

/-- C1 (counterexample): the stashed first block is written back to storage
before the signature is verified — `_signatureValid` calls
`_enablePartition` first so the external SHA-256 covers the whole image —
so after a failed signature check `end` returns false with the
`SignatureVerificationFailed` sticky error while the partition's first
byte already equals the true image magic, i.e. the partition appears
bootable although verification failed.  This refutes the claim's "during
a failed signature check" clause. -/
theorem C1_counterexample :
    (endU envSigFail md5Empty false sessSig).2 = false ∧
    (endU envSigFail md5Empty false sessSig).1.error =
      UPDATE_ERROR_SIGNATURE_VERIFICATION ∧
    (endU envSigFail md5Empty false sessSig).1.flash 0 = ESP_IMAGE_HEADER_MAGIC := by
  decide

/-- C1 (amended): during the write phase — under `begin`, `write`,
`writeFromStream` and `abort`, i.e. at every point before `end` is
called — a flashable session that has flushed at least once keeps the
partition's first stored byte at the erased value 0xFF, which differs
from the true image magic, so the partition never appears bootable
before `end`; the stashed first block is written back only inside `end`
(by the signature check when a key is configured, or by activation), and
a failed signature check happens only after that write-back. -/
theorem C1_no_boot_before_end (env : Env)
    (nextOta spiffsPart fatPart : Option Partition) (sz command : Nat)
    (data : List Nat) (src : ByteSource) (s : UC) (hs : noEarlyBoot s) :
    noEarlyBoot (begin nextOta spiffsPart fatPart sz command s).1 ∧
    noEarlyBoot (write env s data).1 ∧
    noEarlyBoot (writeStream env s src).1 ∧
    noEarlyBoot (abortU s) := by
  refine ⟨begin_noEarlyBoot _ _ _ _ _ _ hs, ?_, ?_, noEarlyBoot_abortErr _ _⟩
  · unfold write
    by_cases hg : hasError s ∨ ¬ isRunning s
    · rw [if_pos hg]
      exact hs
    · rw [if_neg hg]
      by_cases hsp : remaining s < data.length
      · rw [if_pos hsp]
        exact noEarlyBoot_abortErr _ _
      · rw [if_neg hsp]
        exact writeLoopF_noEarlyBoot env _ s data data.length hs
  · unfold writeStream
    by_cases hg : hasError s ∨ ¬ isRunning s
    · rw [if_pos hg]
      exact hs
    · rw [if_neg hg]
      rcases hvh : verifyHeader (streamPeek src) s with ⟨s1, b1⟩
      cases b1 with
      | false => exact noEarlyBoot_reset _
      | true =>
        have hs1 : s1 = s := verifyHeader_true _ _ _ hvh
        unfold streamLoop
        exact streamLoopF_noEarlyBoot env _ s1 src 0 (by rw [hs1]; exact hs)

theorem C1_witness :
    noEarlyBoot (begin (some part8k) none none 20 U_FLASH sessF20).1 ∧
    noEarlyBoot (write envAll sessF20 sampleImage).1 ∧
    noEarlyBoot (writeStream envAll sessF20 [sampleImage]).1 ∧
    noEarlyBoot (abortU sessF20) :=
  C1_no_boot_before_end envAll (some part8k) none none 20 U_FLASH sampleImage
    [sampleImage] sessF20 (by decide)

theorem abortErr_fields (e : Nat) (s : UC) :
    (abortErr e s).error = e ∧ (abortErr e s).size = 0 ∧ (abortErr e s).progress = 0 ∧
    (abortErr e s).buffer = none ∧ (abortErr e s).flash = s.flash ∧
    (abortErr e s).target_md5 = s.target_md5 ∧ (abortErr e s).pubKey = s.pubKey ∧
    (abortErr e s).partition = s.partition ∧ (abortErr e s).command = U_FLASH :=
  ⟨rfl, rfl, rfl, rfl, rfl, rfl, rfl, rfl, rfl⟩

/-- C8: calling `abort()` twice in succession is safe and leaves the engine
in exactly the same state as calling it once: idle with the pending
buffer freed, size and progress zero, and the sticky error set to
`Aborted`. -/
theorem C8_abort_idempotent (s : UC) :
    abortU (abortU s) = abortU s ∧ (abortU s).error = UPDATE_ERROR_ABORT ∧
    (abortU s).size = 0 ∧ (abortU s).progress = 0 ∧ (abortU s).buffer = none :=
  ⟨rfl, rfl, rfl, rfl, rfl⟩

/-- C7 (counterexample): a failed `begin` does replace the sticky error.
From the aborted idle state (sticky error `Aborted`), a `begin` that fails
for lack of a partition returns false yet changes the sticky error to
`NoPartition`, refuting "no failed `begin` ... clears or replaces it". -/
theorem C7_counterexample :
    erroredIdle.error = UPDATE_ERROR_ABORT ∧
    (begin none none none 5 U_FLASH erroredIdle).2 = false ∧
    (begin none none none 5 U_FLASH erroredIdle).1.error = UPDATE_ERROR_NO_PARTITION ∧
    (begin none none none 5 U_FLASH erroredIdle).1.error ≠ erroredIdle.error := by
  decide

/-- C7 (amended): a sticky error, once set, persists unchanged through every
`write`, `writeFromStream` and `end` call (each rejects the call without
touching the error); it is replaced only by `abort` (which sets `Aborted`)
or by a `begin` call that passes the already-running guard — such a
`begin` clears the error even when it subsequently fails and records a
new one. -/
theorem C7_amended_sticky_persists (env : Env) (H : List Nat → String) (s : UC)
    (data : List Nat) (src : ByteSource) (b : Bool) (h : hasError s) :
    (write env s data).1.error = s.error ∧ (write env s data).2 = 0 ∧
    (writeStream env s src).1.error = s.error ∧ (writeStream env s src).2 = 0 ∧
    (endU env H b s).1.error = s.error ∧ (endU env H b s).2 = false := by
  unfold write writeStream endU
  rw [if_pos (Or.inl h), if_pos (Or.inl h), if_pos (Or.inl h)]
  exact ⟨rfl, rfl, rfl, rfl, rfl, rfl⟩

theorem C7_witness :
    (write envAll erroredIdle sampleImage).1.error = erroredIdle.error ∧
    (write envAll erroredIdle sampleImage).2 = 0 ∧
    (writeStream envAll erroredIdle [sampleImage]).1.error = erroredIdle.error ∧
    (writeStream envAll erroredIdle [sampleImage]).2 = 0 ∧
    (endU envAll md5Empty false erroredIdle).1.error = erroredIdle.error ∧
    (endU envAll md5Empty false erroredIdle).2 = false :=
  C7_amended_sticky_persists envAll md5Empty erroredIdle sampleImage [sampleImage] false
    (by decide)

/-- C6 (counterexample): the space check does not subtract the buffered
bytes.  With 30 declared, 0 flushed and 10 buffered, a 25-byte `write`
exceeds "size minus progress minus buffered" (20) yet is accepted in
full (returns 25) with no error recorded, refuting the claim that such a
call returns 0 and aborts with `NotEnoughSpace`. -/
theorem C6_counterexample :
    sess30b.size - sess30b.progress - bufferLen sess30b < (List.range 25).length ∧
    (write envAll sess30b (List.range 25)).2 = 25 ∧
    (write envAll sess30b (List.range 25)).1.error = UPDATE_ERROR_OK := by
  decide

/-- C6 (amended): the remaining capacity is the declared size minus the
flushed progress (`remaining()`), with buffered bytes not subtracted; a
running, error-free `write` call whose length exceeds it returns 0,
aborts the session (buffer freed, size and progress zero) and sets the
sticky error to `NotEnoughSpace`. -/
theorem C6_amended_space_check (env : Env) (s : UC) (data : List Nat)
    (h1 : ¬ hasError s) (h2 : isRunning s) (h3 : remaining s < data.length) :
    write env s data = (abortErr UPDATE_ERROR_SPACE s, 0) ∧
    (write env s data).1.error = UPDATE_ERROR_SPACE ∧
    (write env s data).1.size = 0 ∧ (write env s data).1.progress = 0 ∧
    (write env s data).1.buffer = none := by
  unfold write
  rw [if_neg (by simp [h1, h2]), if_pos h3]
  exact ⟨rfl, rfl, rfl, rfl, rfl⟩

theorem C6_witness :
    ¬ hasError sess30b ∧ isRunning sess30b ∧ remaining sess30b < (List.range 31).length ∧
    write envAll sess30b (List.range 31) = (abortErr UPDATE_ERROR_SPACE sess30b, 0) ∧
    (write envAll sess30b (List.range 31)).1.error = UPDATE_ERROR_SPACE ∧
    (write envAll sess30b (List.range 31)).1.size = 0 ∧
    (write envAll sess30b (List.range 31)).1.progress = 0 ∧
    (write envAll sess30b (List.range 31)).1.buffer = none :=
  ⟨by decide, by decide, by decide,
    (C6_amended_space_check envAll sess30b (List.range 31) (by decide) (by decide)
      (by decide)).1,
    (C6_amended_space_check envAll sess30b (List.range 31) (by decide) (by decide)
      (by decide)).2.1,
    (C6_amended_space_check envAll sess30b (List.range 31) (by decide) (by decide)
      (by decide)).2.2.1,
    (C6_amended_space_check envAll sess30b (List.range 31) (by decide) (by decide)
      (by decide)).2.2.2.1,
    (C6_amended_space_check envAll sess30b (List.range 31) (by decide) (by decide)
      (by decide)).2.2.2.2⟩

/-- C9: when `end(evenIfRemaining := true)` flushes a non-empty pending
buffer and that flush fails (here: the external erase fails, aborting the
session with the `EraseFailed` sticky error), `end` does not return false
at that point: the flush's result is discarded and `end` proceeds through
hash finalization, the (here unconfigured) signature check and the
activation step — in this run activation even succeeds, so `end` returns
true with the flush's sticky error still recorded and the stashed first
block written back (first stored byte equals the magic). -/
theorem C9_end_ignores_failed_final_flush :
    0 < bufferLen sessF40p ∧ sessF40p.error = UPDATE_ERROR_OK ∧
    (writeBuffer envEraseFail sessF40p).2 = false ∧
    (endU envEraseFail md5Empty true sessF40p).2 = true ∧
    (endU envEraseFail md5Empty true sessF40p).1.error = UPDATE_ERROR_ERASE ∧
    (endU envEraseFail md5Empty true sessF40p).1.flash 0 = ESP_IMAGE_HEADER_MAGIC := by
  decide

/-- C4 (counterexample): when stream ingestion for a flashable target peeks
a non-magic first byte, a sticky error is recorded: `_verifyHeader`
aborts with `WrongMagicByte` before `writeStream` resets the session, so
the call returns 0 with the sticky error set — refuting "without an
error being recorded". -/
theorem C4_counterexample :
    (writeStream envAll sessF20 [[0, 1, 2]]).2 = 0 ∧
    (writeStream envAll sessF20 [[0, 1, 2]]).1.error = UPDATE_ERROR_MAGIC_BYTE ∧
    (writeStream envAll sessF20 [[0, 1, 2]]).1.error ≠ UPDATE_ERROR_OK := by
  decide

/-- C4 (amended): when stream ingestion for a flashable target peeks a first
byte that is not the magic byte, the session is aborted with the
`WrongMagicByte` sticky error and additionally reset (idle: size and
progress zero, buffer freed), and the call returns 0. -/
theorem C4_amended_stream_magic_mismatch (env : Env) (s : UC) (src : ByteSource)
    (h1 : ¬ hasError s) (h2 : isRunning s) (h3 : s.command = U_FLASH)
    (h4 : streamPeek src ≠ ESP_IMAGE_HEADER_MAGIC) :
    (writeStream env s src).2 = 0 ∧
    (writeStream env s src).1.error = UPDATE_ERROR_MAGIC_BYTE ∧
    (writeStream env s src).1.size = 0 ∧ (writeStream env s src).1.progress = 0 ∧
    (writeStream env s src).1.buffer = none := by
  unfold writeStream verifyHeader
  rw [if_neg (by simp [h1, h2]), if_pos h3, if_pos h4]
  exact ⟨rfl, rfl, rfl, rfl, rfl⟩

theorem C4_witness :
    ¬ hasError sessF20 ∧ isRunning sessF20 ∧ sessF20.command = U_FLASH ∧
    streamPeek [[7, 7]] ≠ ESP_IMAGE_HEADER_MAGIC ∧
    (writeStream envAll sessF20 [[7, 7]]).2 = 0 ∧
    (writeStream envAll sessF20 [[7, 7]]).1.error = UPDATE_ERROR_MAGIC_BYTE ∧
    (writeStream envAll sessF20 [[7, 7]]).1.size = 0 :=
  ⟨by decide, by decide, by decide, by decide,
    (C4_amended_stream_magic_mismatch envAll sessF20 [[7, 7]] (by decide) (by decide)
      (by decide) (by decide)).1,
    (C4_amended_stream_magic_mismatch envAll sessF20 [[7, 7]] (by decide) (by decide)
      (by decide) (by decide)).2.1,
    (C4_amended_stream_magic_mismatch envAll sessF20 [[7, 7]] (by decide) (by decide)
      (by decide) (by decide)).2.2.1⟩

theorem slice_append (S : List Nat) (p k m : Nat) (hp : p ≤ k) (hk : k + m ≤ S.length) :
    (S.take k).drop p ++ (S.drop k).take m = (S.take (k + m)).drop p := by
  rw [List.take_add]
  rw [List.drop_append_of_le_length (by rw [List.length_take]; omega)]

theorem slice_length (S : List Nat) (p k : Nat) (hk : k ≤ S.length) :
    ((S.take k).drop p).length = k - p := by
  rw [List.length_drop, List.length_take]
  omega

theorem slice_getD (S : List Nat) (p k i : Nat) (hp : p ≤ i) (hik : i < k) :
    ((S.take k).drop p).getD (i - p) 0 = S.getD i 0 := by
  rw [List.getD_eq_getElem?_getD, List.getElem?_drop, List.getD_eq_getElem?_getD]
  have he : p + (i - p) = i := by omega
  rw [he, List.getElem?_take_of_lt hik]

theorem slice_headD (S : List Nat) (k : Nat) (hk : 0 < k) :
    ((S.take k).drop 0).headD 0 = S.headD 0 := by
  rw [List.drop_zero]
  cases S with
  | nil => rw [List.take_nil]
  | cons a t =>
    cases k with
    | zero => omega
    | succ n => rw [List.take_succ_cons, List.headD_cons, List.headD_cons]

theorem take_getD (S : List Nat) (k i : Nat) (hik : i < k) :
    (S.take k).getD i 0 = S.getD i 0 := by
  rw [List.getD_eq_getElem?_getD, List.getElem?_take_of_lt hik, List.getD_eq_getElem?_getD]

theorem slice_nil (S : List Nat) (k : Nat) : (S.take k).drop k = [] :=
  List.drop_eq_nil_of_le (by rw [List.length_take]; omega)

theorem C2_flush (env : Env) (S : List Nat) (psize : Nat)
    (hEnv : EnvAllOk env) (hps : psize % SPI_FLASH_SEC_SIZE = 0)
    (hNp : S.length ≤ psize) (h16 : ENCRYPTED_BLOCK_SIZE ≤ S.length)
    (hhead : S.headD 0 = ESP_IMAGE_HEADER_MAGIC) (h32 : psize < 4294967296)
    (k : Nat) (s : UC)
    (hE0 : s.error = UPDATE_ERROR_OK) (hS0 : s.size = S.length)
    (hC0 : s.command = U_FLASH) (hP0 : s.partition = some ⟨psize⟩)
    (hK0 : s.pubKey = none) (hT0 : s.target_md5 = "")
    (hsum : s.progress + bufferLen s = k)
    (hbuf : s.buffer = some ((S.take k).drop s.progress))
    (hkN : k ≤ S.length) (hfull : s.progress < k)
    (hprogmod : s.progress % SPI_FLASH_SEC_SIZE = 0)
    (hkmod : k < S.length → k % SPI_FLASH_SEC_SIZE = 0)
    (hflash : 0 < s.progress →
      (∀ i, i < ENCRYPTED_BLOCK_SIZE → s.flash i = 255) ∧
      (∀ i, ENCRYPTED_BLOCK_SIZE ≤ i → i < s.progress → s.flash i = S.getD i 0) ∧
      s.skipBuffer = some (S.take ENCRYPTED_BLOCK_SIZE) ∧
      ENCRYPTED_BLOCK_SIZE ≤ s.progress) :
    ∃ t, writeBuffer env s = (t, true) ∧ C2Inv S psize k t ∧
      t.progress = k ∧ t.buffer = some [] := by
  have c16 : ENCRYPTED_BLOCK_SIZE = 16 := rfl
  have c4096 : SPI_FLASH_SEC_SIZE = 4096 := rfl
  have hps9 : psize % 4096 = 0 := hps
  have h169 : 16 ≤ S.length := h16
  have hpm9 : s.progress % 4096 = 0 := hprogmod
  have hkm9 : k < S.length → k % 4096 = 0 := hkmod
  have hblen : bufferLen s = k - s.progress := by omega
  have hk16 : 16 ≤ k := by
    rcases Nat.lt_or_ge k S.length with hlt | hge
    · have := hkm9 hlt
      omega
    · omega
  rcases Nat.eq_zero_or_pos s.progress with hz | hpz
  · obtain ⟨t, hwb, htp, htb, hte, hts, htc, htpart, htpk, httm, htsk, hfl1, hfl2⟩ :=
      writeBuffer_flush_first env s psize hP0 hz hC0
        (by rw [hbuf, Option.getD_some]
            rw [hz, slice_headD S k (by omega)]
            exact hhead)
        (by rw [hblen, hz, Nat.sub_zero]
            show 16 ≤ k
            exact hk16)
        (hEnv.1 s.progress) (hEnv.2.1 (s.progress + ENCRYPTED_BLOCK_SIZE))
        (by show s.progress + 4096 ≤ psize
            omega)
        (by rw [hblen]
            omega)
        (by rw [hblen]
            omega)
    have hbt : bufferLen t = 0 := by rw [bufferLen, htb]; rfl
    have htpk2 : t.progress = k := by
      rw [htp, hblen, hz]
      omega
    refine ⟨t, hwb, ?_, htpk2, htb⟩
    refine ⟨hte.trans hE0, hts.trans hS0, htc.trans hC0, htpart.trans hP0,
      htpk.trans hK0, httm.trans hT0, by omega, ?_, by omega, ?_, ?_, ?_⟩
    · rw [htb, htpk2, slice_nil]
    · intro hlt
      rw [htpk2]
      exact hkm9 hlt
    · intro hke
      rw [htpk2]
      omega
    · intro _
      refine ⟨hfl1, ?_, ?_, ?_⟩
      · intro i hi1 hi2
        rw [htpk2] at hi2
        have hi2b : i < bufferLen s := by omega
        rw [hfl2 i hi1 hi2b, hbuf, Option.getD_some, hz, List.drop_zero,
          take_getD S k i (by omega)]
      · rw [htsk, hbuf, Option.getD_some, hz, List.drop_zero, List.take_take]
        have hm : min ENCRYPTED_BLOCK_SIZE k = ENCRYPTED_BLOCK_SIZE := by
          show min 16 k = 16
          omega
        rw [hm]
      · rw [htpk2]
        omega
  · obtain ⟨hfa, hfb, hfc, hfd⟩ := hflash hpz
    have hfd9 : 16 ≤ s.progress := hfd
    obtain ⟨t, hwb, htp, htb, hte, hts, htc, htpart, htpk, httm, htsk, hfl1, hfl2⟩ :=
      writeBuffer_flush_mid env s psize hP0
        (fun hc => by omega)
        (hEnv.1 s.progress) (hEnv.2.1 s.progress)
        (by show s.progress + 4096 ≤ psize
            omega)
        (by rw [hblen]
            omega)
        (by rw [hblen]
            omega)
    have hbt : bufferLen t = 0 := by rw [bufferLen, htb]; rfl
    have htpk2 : t.progress = k := by
      rw [htp]
      omega
    refine ⟨t, hwb, ?_, htpk2, htb⟩
    refine ⟨hte.trans hE0, hts.trans hS0, htc.trans hC0, htpart.trans hP0,
      htpk.trans hK0, httm.trans hT0, by omega, ?_, by omega, ?_, ?_, ?_⟩
    · rw [htb, htpk2, slice_nil]
    · intro hlt
      rw [htpk2]
      exact hkm9 hlt
    · intro hke
      rw [htpk2]
      omega
    · intro _
      refine ⟨?_, ?_, ?_, ?_⟩
      · intro i hi
        rw [hfl1 i (by omega)]
        exact hfa i hi
      · intro i hi1 hi2
        rw [htpk2] at hi2
        rcases Nat.lt_or_ge i s.progress with hip | hip
        · rw [hfl1 i hip]
          exact hfb i hi1 hip
        · rw [hfl2 i hip (by omega), hbuf, Option.getD_some,
            slice_getD S s.progress k i hip (by omega)]
      · rw [htsk]
        exact hfc
      · rw [htpk2]
        omega
end CQUpdate


namespace CQUpdate

theorem C2_writeLoopF (env : Env) (S : List Nat) (psize : Nat)
    (hEnv : EnvAllOk env) (hps : psize % SPI_FLASH_SEC_SIZE = 0)
    (hNp : S.length ≤ psize) (h16 : ENCRYPTED_BLOCK_SIZE ≤ S.length)
    (hhead : S.headD 0 = ESP_IMAGE_HEADER_MAGIC) (h32 : psize < 4294967296) :
    ∀ (fuel : Nat) (s : UC) (rest : List Nat) (len k : Nat),
      C2Inv S psize k s → rest ≠ [] →
      rest = (S.drop k).take rest.length →
      k + rest.length ≤ S.length →
      rest.length + bufferLen s + 2 ≤ fuel →
      (writeLoopF env fuel s rest len).2 = len ∧
      C2Inv S psize (k + rest.length) (writeLoopF env fuel s rest len).1 := by
  have c4096 : SPI_FLASH_SEC_SIZE = 4096 := rfl
  intro fuel
  induction fuel with
  | zero =>
    intro s rest len k hinv hne hrest hbound hfuel
    omega
  | succ n ih =>
    intro s rest len k hinv hne hrest hbound hfuel
    obtain ⟨hE0, hS0, hC0, hP0, hK0, hT0, hsum, hbuf, hble, hmod, hfin, hflash⟩ := hinv
    have hL1 : 0 < rest.length := List.length_pos.mpr hne
    have hkN : k < S.length := by omega
    have hpmod : s.progress % 4096 = 0 := hmod hkN
    have hpm' : s.progress % SPI_FLASH_SEC_SIZE = 0 := hpmod
    have hble' : bufferLen s ≤ 4096 := hble
    have hsub : SPI_FLASH_SEC_SIZE - bufferLen s = 4096 - bufferLen s := rfl
    rw [writeLoopF_succ]
    by_cases hgt : SPI_FLASH_SEC_SIZE < bufferLen s + rest.length
    · rw [if_pos hgt]
      dsimp only
      have htoB : SPI_FLASH_SEC_SIZE - bufferLen s < rest.length := by omega
      have htake : rest.take (SPI_FLASH_SEC_SIZE - bufferLen s)
          = (S.drop k).take (SPI_FLASH_SEC_SIZE - bufferLen s) := by
        conv_lhs => rw [hrest]
        rw [List.take_take]
        have hm : min (SPI_FLASH_SEC_SIZE - bufferLen s) rest.length
            = SPI_FLASH_SEC_SIZE - bufferLen s := by omega
        rw [hm]
      have hsum1 : s.progress + SPI_FLASH_SEC_SIZE
          = k + (SPI_FLASH_SEC_SIZE - bufferLen s) := by omega
      have hbufapp : (s.buffer.getD []) ++ rest.take (SPI_FLASH_SEC_SIZE - bufferLen s)
          = (S.take (k + (SPI_FLASH_SEC_SIZE - bufferLen s))).drop s.progress := by
        rw [hbuf, Option.getD_some, htake]
        exact slice_append S s.progress k (SPI_FLASH_SEC_SIZE - bufferLen s)
          (by omega) (by omega)
      have hlenapp : ((s.buffer.getD []) ++ rest.take (SPI_FLASH_SEC_SIZE - bufferLen s)).length
          = SPI_FLASH_SEC_SIZE := by
        rw [List.length_append, List.length_take]
        have hb : (s.buffer.getD []).length = bufferLen s := rfl
        omega
      obtain ⟨t, hwb, hinvt, htp, htb⟩ := C2_flush env S psize hEnv hps hNp h16 hhead h32
        (k + (SPI_FLASH_SEC_SIZE - bufferLen s))
        { s with buffer := some ((s.buffer.getD []) ++
            rest.take (SPI_FLASH_SEC_SIZE - bufferLen s)) }
        hE0 hS0 hC0 hP0 hK0 hT0
        (by show s.progress + ((s.buffer.getD []) ++
              rest.take (SPI_FLASH_SEC_SIZE - bufferLen s)).length = _
            rw [hlenapp]
            exact hsum1)
        (by show some ((s.buffer.getD []) ++
              rest.take (SPI_FLASH_SEC_SIZE - bufferLen s)) = some _
            rw [hbufapp])
        (by omega)
        (by show s.progress < k + (SPI_FLASH_SEC_SIZE - bufferLen s)
            omega)
        hpm'
        (fun _ => by
          show (k + (4096 - bufferLen s)) % 4096 = 0
          omega)
        hflash
      rw [hwb]
      dsimp only
      have hbt : bufferLen t = 0 := by rw [bufferLen, htb]; rfl
      have hlrest2 : (rest.drop (SPI_FLASH_SEC_SIZE - bufferLen s)).length
          = rest.length - (SPI_FLASH_SEC_SIZE - bufferLen s) := List.length_drop _ _
      have hrest2 : rest.drop (SPI_FLASH_SEC_SIZE - bufferLen s)
          = (S.drop (k + (SPI_FLASH_SEC_SIZE - bufferLen s))).take
              ((rest.drop (SPI_FLASH_SEC_SIZE - bufferLen s)).length) := by
        rw [hlrest2]
        conv_lhs => rw [hrest]
        rw [List.drop_take, List.drop_drop]
      have hne2 : rest.drop (SPI_FLASH_SEC_SIZE - bufferLen s) ≠ [] :=
        List.length_pos.mp (by rw [hlrest2]; omega)
      obtain ⟨hres1, hres2⟩ := ih t (rest.drop (SPI_FLASH_SEC_SIZE - bufferLen s)) len
        (k + (SPI_FLASH_SEC_SIZE - bufferLen s)) hinvt hne2 hrest2
        (by rw [hlrest2]; omega)
        (by rw [hlrest2, hbt]; omega)
      refine ⟨hres1, ?_⟩
      have he : k + (SPI_FLASH_SEC_SIZE - bufferLen s)
          + (rest.drop (SPI_FLASH_SEC_SIZE - bufferLen s)).length = k + rest.length := by
        rw [hlrest2]; omega
      rw [← he]
      exact hres2
    · rw [if_neg hgt]
      dsimp only
      have hlenapp : ((s.buffer.getD []) ++ rest).length = bufferLen s + rest.length := by
        rw [List.length_append]
        rfl
      have happ : (S.take k).drop s.progress ++ (S.drop k).take rest.length
          = (S.take (k + rest.length)).drop s.progress :=
        slice_append S s.progress k rest.length (by omega) hbound
      have hbuf1 : some ((s.buffer.getD []) ++ rest)
          = some ((S.take (k + rest.length)).drop s.progress) := by
        rw [hbuf, Option.getD_some]
        conv_lhs => rw [hrest]
        rw [happ]
      by_cases hke : k + rest.length = S.length
      · have hcond : bufferLen { s with buffer := some ((s.buffer.getD []) ++ rest) }
            = remaining { s with buffer := some ((s.buffer.getD []) ++ rest) } := by
          show ((s.buffer.getD []) ++ rest).length = s.size - s.progress
          rw [hlenapp]
          omega
        rw [if_pos hcond]
        obtain ⟨t, hwb, hinvt, htp, htb⟩ := C2_flush env S psize hEnv hps hNp h16 hhead h32
          (k + rest.length)
          { s with buffer := some ((s.buffer.getD []) ++ rest) }
          hE0 hS0 hC0 hP0 hK0 hT0
          (by show s.progress + ((s.buffer.getD []) ++ rest).length = k + rest.length
              rw [hlenapp]
              omega)
          hbuf1
          (by omega)
          (by show s.progress < k + rest.length
              omega)
          hpm'
          (fun h => absurd hke (Nat.ne_of_lt h))
          hflash
        rw [hwb]
        dsimp only
        exact ⟨rfl, hinvt⟩
      · have hcond : ¬ (bufferLen { s with buffer := some ((s.buffer.getD []) ++ rest) }
            = remaining { s with buffer := some ((s.buffer.getD []) ++ rest) }) := by
          show ¬ (((s.buffer.getD []) ++ rest).length = s.size - s.progress)
          rw [hlenapp]
          omega
        rw [if_neg hcond]
        refine ⟨rfl, hE0, hS0, hC0, hP0, hK0, hT0, ?_, hbuf1, ?_,
          fun _ => hpm', fun h => absurd h hke, hflash⟩
        · show s.progress + ((s.buffer.getD []) ++ rest).length = k + rest.length
          rw [hlenapp]
          omega
        · show ((s.buffer.getD []) ++ rest).length ≤ SPI_FLASH_SEC_SIZE
          rw [hlenapp]
          omega


theorem C2_write (env : Env) (S : List Nat) (psize : Nat)
    (hEnv : EnvAllOk env) (hps : psize % SPI_FLASH_SEC_SIZE = 0)
    (hNp : S.length ≤ psize) (h16 : ENCRYPTED_BLOCK_SIZE ≤ S.length)
    (hhead : S.headD 0 = ESP_IMAGE_HEADER_MAGIC) (h32 : psize < 4294967296)
    (k : Nat) (s : UC) (data : List Nat)
    (hinv : C2Inv S psize k s) (hne : data ≠ [])
    (hdata : data = (S.drop k).take data.length)
    (hbound : k + data.length ≤ S.length) :
    (write env s data).2 = data.length ∧
    C2Inv S psize (k + data.length) (write env s data).1 := by
  have h169 : 16 ≤ S.length := h16
  obtain ⟨hE0, hS0, hC0, hP0, hK0, hT0, hsum, hbuf, hble, hmod, hfin, hflash⟩ := hinv
  have hguard : ¬ (hasError s ∨ ¬ isRunning s) := by
    rintro (h | h)
    · exact h hE0
    · exact h (show 0 < s.size by omega)
  have hsp : ¬ (remaining s < data.length) := by
    show ¬ (s.size - s.progress < data.length)
    omega
  unfold write writeLoop
  rw [if_neg hguard, if_neg hsp]
  exact C2_writeLoopF env S psize hEnv hps hNp h16 hhead h32
    (data.length + bufferLen s + 2) s data data.length k
    ⟨hE0, hS0, hC0, hP0, hK0, hT0, hsum, hbuf, hble, hmod, hfin, hflash⟩
    hne hdata hbound (Nat.le_refl _)

theorem C2_writeChunks (env : Env) (S : List Nat) (psize : Nat)
    (hEnv : EnvAllOk env) (hps : psize % SPI_FLASH_SEC_SIZE = 0)
    (hNp : S.length ≤ psize) (h16 : ENCRYPTED_BLOCK_SIZE ≤ S.length)
    (hhead : S.headD 0 = ESP_IMAGE_HEADER_MAGIC) (h32 : psize < 4294967296) :
    ∀ (cs : List (List Nat)) (k : Nat) (s : UC),
      C2Inv S psize k s → (∀ c ∈ cs, c ≠ []) →
      S.drop k = cs.flatten → k ≤ S.length →
      C2Inv S psize S.length (writeChunks env s cs) := by
  intro cs
  induction cs with
  | nil =>
    intro k s hinv hcne hflat hkN
    have hNk : S.length ≤ k := List.drop_eq_nil_iff.mp hflat
    have hkeq : k = S.length := by omega
    rw [← hkeq]
    exact hinv
  | cons c cs ih =>
    intro k s hinv hcne hflat hkN
    have hcne' : c ≠ [] := hcne c (by simp)
    have hdata : c = (S.drop k).take c.length := by
      rw [hflat, List.flatten_cons, List.take_left]
    have hlen := congrArg List.length hflat
    rw [List.length_drop, List.flatten_cons, List.length_append] at hlen
    have hbound : k + c.length ≤ S.length := by omega
    obtain ⟨hwlen, hinv'⟩ := C2_write env S psize hEnv hps hNp h16 hhead h32
      k s c hinv hcne' hdata hbound
    show C2Inv S psize S.length (writeChunks env (write env s c).1 cs)
    apply ih (k + c.length) _ hinv' (fun c' hc' => hcne c' (by simp [hc']))
    · rw [← List.drop_drop, hflat, List.flatten_cons, List.drop_left]
    · exact hbound

theorem C2_end (env : Env) (H : List Nat → String) (S : List Nat) (psize : Nat) (t : UC)
    (hEnv : EnvAllOk env) (hNp : S.length ≤ psize) (h16 : ENCRYPTED_BLOCK_SIZE ≤ S.length)
    (hhead : S.headD 0 = ESP_IMAGE_HEADER_MAGIC)
    (hinv : C2Inv S psize S.length t) :
    (endU env H false t).2 = true ∧
    ∀ i, i < S.length → (endU env H false t).1.flash i = S.getD i 0 := by
  have c16 : ENCRYPTED_BLOCK_SIZE = 16 := rfl
  have h169 : 16 ≤ S.length := h16
  obtain ⟨hE0, hS0, hC0, hP0, hK0, hT0, hsum, hbuf, hble, hmod, hfin, hflash⟩ := hinv
  have hprog : t.progress = S.length := hfin rfl
  obtain ⟨hf255, hfS, hskip, _⟩ := hflash (by omega)
  have hg1 : ¬ (hasError t ∨ t.size = 0) := by
    rintro (h | h)
    · exact h hE0
    · omega
  have hg2 : ¬ (¬ isFinished t ∧ ¬ (false : Bool) = true) := by
    rintro ⟨h, _⟩
    exact h (show t.progress = t.size by omega)
  unfold endU
  rw [if_neg hg1, if_neg hg2]
  have hef : endFlush env false t = t := rfl
  rw [hef]
  have hmd5 : ¬ (0 < t.target_md5.length ∧ t.target_md5 ≠ H t.md5fed) := by
    rw [hT0]
    rintro ⟨h, _⟩
    exact absurd h (by decide)
  unfold endVerify
  rw [if_neg hmd5, hK0]
  dsimp only
  unfold verifyEnd
  rw [if_pos hC0]
  have hen : enablePartition env t =
      ({ t with flash := fun i =>
          if 0 ≤ i ∧ i < 0 + ENCRYPTED_BLOCK_SIZE
          then (t.skipBuffer.getD []).getD (i - 0) 0 else t.flash i }, true) := by
    unfold enablePartition partitionWrite
    rw [hP0]
    dsimp only
    rw [if_pos ⟨hEnv.2.1 0, by omega⟩]
  rw [hen]
  dsimp only
  have hboot : partitionIsBootable env
      { t with flash := fun i =>
          if 0 ≤ i ∧ i < 0 + ENCRYPTED_BLOCK_SIZE
          then (t.skipBuffer.getD []).getD (i - 0) 0 else t.flash i } = true := by
    unfold partitionIsBootable
    rw [hP0]
    dsimp only
    rw [if_pos ⟨hEnv.2.2.1, by omega⟩]
    show decide ((if 0 ≤ 0 ∧ 0 < 0 + ENCRYPTED_BLOCK_SIZE
      then (t.skipBuffer.getD []).getD (0 - 0) 0 else t.flash 0) = ESP_IMAGE_HEADER_MAGIC) = true
    rw [if_pos ⟨Nat.le_refl 0, by omega⟩, hskip]
    have hv : ((some (S.take ENCRYPTED_BLOCK_SIZE)).getD ([] : List Nat)).getD (0 - 0) 0
        = S.getD 0 0 := by
      rw [Option.getD_some]
      exact take_getD S ENCRYPTED_BLOCK_SIZE 0 (by omega)
    rw [hv]
    have hh : S.getD 0 0 = S.headD 0 := by cases S <;> rfl
    rw [hh, hhead]
    decide
  rw [if_neg (by rw [hboot]; exact fun h => h rfl)]
  rw [if_neg (by rw [hEnv.2.2.2]; exact fun h => h rfl)]
  refine ⟨rfl, ?_⟩
  intro i hi
  show (if 0 ≤ i ∧ i < 0 + ENCRYPTED_BLOCK_SIZE
    then (t.skipBuffer.getD []).getD (i - 0) 0 else t.flash i) = S.getD i 0
  by_cases hi16 : i < ENCRYPTED_BLOCK_SIZE
  · rw [if_pos ⟨Nat.zero_le i, by omega⟩, hskip, Option.getD_some]
    show (S.take ENCRYPTED_BLOCK_SIZE).getD (i - 0) 0 = S.getD i 0
    have hz : i - 0 = i := rfl
    rw [hz]
    exact take_getD S ENCRYPTED_BLOCK_SIZE i hi16
  · rw [if_neg (by omega)]
    exact hfS i (by omega) (by omega)


/-- C2: amended round trip.  For every image `S` of length at least
`ENCRYPTED_BLOCK_SIZE` whose first byte is the image magic, every split of
`S` into nonempty chunks fed to successive `write` calls of a session begun
with size `S.length` on a sector-aligned OTA partition large enough for the
image, with all external erase/write/read/boot operations succeeding and no
expected hash or public key configured, `end` succeeds and the final
partition content at offsets `0..S.length-1` equals `S` exactly,
independent of the chunk boundaries chosen.  (The claim as stated fails for
images shorter than `ENCRYPTED_BLOCK_SIZE`; see the counterexample.) -/
theorem C2_roundtrip_amended (env : Env) (H : List Nat → String)
    (fl : Nat → Nat) (S : List Nat) (psize : Nat) (chunks : List (List Nat))
    (hEnv : EnvAllOk env) (hps : psize % SPI_FLASH_SEC_SIZE = 0)
    (hNp : S.length ≤ psize) (h32 : psize < UPDATE_SIZE_UNKNOWN)
    (h16 : ENCRYPTED_BLOCK_SIZE ≤ S.length)
    (hhead : S.headD 0 = ESP_IMAGE_HEADER_MAGIC)
    (hch : ∀ c ∈ chunks, c ≠ []) (hsplit : chunks.flatten = S) :
    (begin (some ⟨psize⟩) none none S.length U_FLASH (initUC fl)).2 = true ∧
    (endU env H false (writeChunks env
        (begin (some ⟨psize⟩) none none S.length U_FLASH (initUC fl)).1 chunks)).2 = true ∧
    ∀ i, i < S.length →
      (endU env H false (writeChunks env
        (begin (some ⟨psize⟩) none none S.length U_FLASH (initUC fl)).1 chunks)).1.flash i
      = S.getD i 0 := by
  have c16 : ENCRYPTED_BLOCK_SIZE = 16 := rfl
  have cUNK : UPDATE_SIZE_UNKNOWN = 4294967295 := rfl
  have h169 : 16 ≤ S.length := h16
  have h32' : psize < 4294967296 := by omega
  have hbegin : begin (some ⟨psize⟩) none none S.length U_FLASH (initUC fl)
      = ({ error := 0, buffer := some [], size := S.length, progress := 0,
           command := U_FLASH, partition := some ⟨psize⟩, paroffset := 0,
           target_md5 := "", md5fed := [], skipBuffer := none,
           target_signature := "", pubKey := none, flash := fl }, true) := by
    unfold begin
    rw [if_neg (show ¬ 0 < (initUC fl).size from fun h => Nat.lt_irrefl 0 h)]
    dsimp only
    rw [if_neg (show ¬ S.length = 0 by omega), if_pos rfl]
    unfold beginSized
    rw [if_neg (show ¬ S.length = UPDATE_SIZE_UNKNOWN by omega)]
    rw [if_neg (show ¬ (Partition.mk psize).size < S.length from
      show ¬ psize < S.length by omega)]
    rfl
  have hinv0 : C2Inv S psize 0
      { error := 0, buffer := some [], size := S.length, progress := 0,
        command := U_FLASH, partition := some ⟨psize⟩, paroffset := 0,
        target_md5 := "", md5fed := [], skipBuffer := none,
        target_signature := "", pubKey := none, flash := fl } :=
    ⟨rfl, rfl, rfl, rfl, rfl, rfl, rfl, rfl, Nat.zero_le _,
     fun _ => Nat.zero_mod _, fun h => h, fun h => absurd h (Nat.lt_irrefl 0)⟩
  have hinvN := C2_writeChunks env S psize hEnv hps hNp h16 hhead h32' chunks 0 _
    hinv0 hch (by rw [List.drop_zero]; exact hsplit.symm) (Nat.zero_le _)
  have hend := C2_end env H S psize _ hEnv hNp h16 hhead hinvN
  rw [hbegin]
  exact ⟨rfl, hend.1, hend.2⟩


/-- C2, counterexample to the claim as stated: for the 1-byte image
`[0xE9]` (magic byte correct, every external operation succeeding) the only
chunking is a single 1-byte `write`; the first flush computes the program
length `_bufferLen - ENCRYPTED_BLOCK_SIZE` in `size_t` arithmetic, which
underflows to `2^32 - 15`, so `ESP.partitionWrite` fails and the session
aborts with `UPDATE_ERROR_WRITE` returning 0; `end` then fails and the
partition content never equals the image. -/
theorem C2_counterexample :
    (begin (some part8k) none none 1 U_FLASH (initUC flashZero)).2 = true ∧
    (write envAll (begin (some part8k) none none 1 U_FLASH (initUC flashZero)).1
      [ESP_IMAGE_HEADER_MAGIC]).2 = 0 ∧
    (write envAll (begin (some part8k) none none 1 U_FLASH (initUC flashZero)).1
      [ESP_IMAGE_HEADER_MAGIC]).1.error = UPDATE_ERROR_WRITE ∧
    (endU envAll md5Empty false
      (write envAll (begin (some part8k) none none 1 U_FLASH (initUC flashZero)).1
        [ESP_IMAGE_HEADER_MAGIC]).1).2 = false ∧
    (endU envAll md5Empty false
      (write envAll (begin (some part8k) none none 1 U_FLASH (initUC flashZero)).1
        [ESP_IMAGE_HEADER_MAGIC]).1).1.flash 0 ≠ ESP_IMAGE_HEADER_MAGIC := by
  decide

/-- C2, witness: the amended round-trip theorem applied to the 20-byte
sample image split into chunks of 7, 9 and 4 bytes. -/
theorem C2_witness :
    (endU envAll md5Empty false (writeChunks envAll
      (begin (some ⟨8192⟩) none none sampleImage.length U_FLASH (initUC flashZero)).1
      [sampleImage.take 7, (sampleImage.drop 7).take 9, sampleImage.drop 16])).2 = true ∧
    (endU envAll md5Empty false (writeChunks envAll
      (begin (some ⟨8192⟩) none none sampleImage.length U_FLASH (initUC flashZero)).1
      [sampleImage.take 7, (sampleImage.drop 7).take 9, sampleImage.drop 16])).1.flash 17
      = sampleImage.getD 17 0 :=
  ⟨(C2_roundtrip_amended envAll md5Empty flashZero sampleImage 8192
      [sampleImage.take 7, (sampleImage.drop 7).take 9, sampleImage.drop 16]
      ⟨fun _ => rfl, fun _ => rfl, rfl, rfl⟩ (by decide) (by decide) (by decide)
      (by decide) (by decide) (by decide) (by decide)).2.1,
   (C2_roundtrip_amended envAll md5Empty flashZero sampleImage 8192
      [sampleImage.take 7, (sampleImage.drop 7).take 9, sampleImage.drop 16]
      ⟨fun _ => rfl, fun _ => rfl, rfl, rfl⟩ (by decide) (by decide) (by decide)
      (by decide) (by decide) (by decide) (by decide)).2.2 17 (by decide)⟩

end CQUpdate
